import Mathlib

/-!
Verification of the settings-reconciliation core of katrain/gui/popups.py.

The Python code is shallowly embedded: Python values flowing through the
config store become the inductive type CVal, dictionaries become ordered
association lists (Python dicts preserve insertion order), widget trees
become FormNode trees, and every fallible Python operation (KeyError,
TypeError, ValueError, InputParseError) returns Except.  Python floats are
modelled as rationals: every float occurring in the modelled code paths is
a small decimal literal, exactly representable.
-/

namespace Popups

/-- A Python value as stored in the nested configuration store. -/
inductive CVal where
  | bool : Bool → CVal
  | int : Int → CVal
  | float : Rat → CVal
  | str : String → CVal
  | list : List CVal → CVal
  | dict : List (String × CVal) → CVal

/-- Dictionary lookup (first binding wins, as in a Python dict which cannot
hold duplicate keys). -/
def dget : List (String × CVal) → String → Option CVal
  | [], _ => none
  | (k', v) :: t, k => if k' = k then some v else dget t k

/-- Dictionary update: overwrite the existing binding in place, or append a
new binding at the end (Python dicts keep insertion order). -/
def dset : List (String × CVal) → String → CVal → List (String × CVal)
  | [], k, v => [(k, v)]
  | (k', v') :: t, k, v => if k' = k then (k, v) :: t else (k', v') :: dset t k v

mutual
/-- Python equality between stored values: booleans, ints and floats compare
through the numeric tower (True == 1 == 1.0), strings compare as strings,
lists and dicts compare elementwise, and values of unrelated kinds are
unequal. -/
def pyEq : CVal → CVal → Bool
  | .bool a, .bool b => a == b
  | .bool a, .int n => (if a then (1 : Int) else 0) == n
  | .int n, .bool a => n == (if a then (1 : Int) else 0)
  | .bool a, .float q => (if a then (1 : Rat) else 0) == q
  | .float q, .bool a => q == (if a then (1 : Rat) else 0)
  | .int n, .int m => n == m
  | .int n, .float q => (n : Rat) == q
  | .float q, .int n => q == (n : Rat)
  | .float q, .float r => q == r
  | .str a, .str b => a == b
  | .list a, .list b => pyEqList a b
  | .dict a, .dict b => pyEqDict a b
  | _, _ => false
def pyEqList : List CVal → List CVal → Bool
  | [], [] => true
  | a :: as, b :: bs => pyEq a b && pyEqList as bs
  | _, _ => false
def pyEqDict : List (String × CVal) → List (String × CVal) → Bool
  | [], [] => true
  | (k, v) :: as, (k', v') :: bs => k == k' && pyEq v v' && pyEqDict as bs
  | _, _ => false
end

/-- Python truthiness of a stored value. -/
def pyTruthy : CVal → Bool
  | .bool b => b
  | .int n => n != 0
  | .float q => q != 0
  | .str s => s != ""
  | .list l => !l.isEmpty
  | .dict d => !d.isEmpty

/-- The Python identity test `value is True`: only the boolean True object
passes; 1, 1.0, nonempty strings and every other truthy value fail. -/
def isPyTrue : CVal → Bool
  | .bool true => true
  | _ => false

/-- A scalar stored value (the only kinds a widget can collect). -/
def isScalar : CVal → Bool
  | .bool _ => true
  | .int _ => true
  | .float _ => true
  | .str _ => true
  | _ => false

/-- Python str() of a value, as used by set_properties to seed a text field.
Containers never reach a text field in the modelled dialogs, so their
rendering is left schematic. -/
def pyStr : CVal → String
  | .bool true => "True"
  | .bool false => "False"
  | .int n => toString n
  | .float q => toString q
  | .str s => s
  | .list _ => "[...]"
  | .dict _ => "dict"

/-- Splitting a character list on a single separator character, modelling
Python str.split(sep) for a one-character separator. -/
def chSplitChar (sep : Char) : List Char → List (List Char)
  | [] => [[]]
  | c :: rest =>
      if c = sep then [] :: chSplitChar sep rest
      else match chSplitChar sep rest with
        | [] => [[c]]
        | h :: t => (c :: h) :: t

/-- Splitting on the two-character separator "::", modelling
Python str.split for that separator (leftmost-first, non-overlapping). -/
def chSplitColons : List Char → List (List Char)
  | [] => [[]]
  | [c] => [[c]]
  | c1 :: c2 :: rest =>
      if c1 = ':' ∧ c2 = ':' then [] :: chSplitColons rest
      else match chSplitColons (c2 :: rest) with
        | [] => [[c1]]
        | h :: t => (c1 :: h) :: t

/-- Substring containment on character lists, modelling the Python
membership test `needle in hay` on strings. -/
def chContainsL : List Char → List Char → Bool
  | hay, needle =>
    if needle.isPrefixOf hay then true
    else match hay with
      | [] => false
      | _ :: t => chContainsL t needle

/-- Python `needle in hay` for strings. -/
def pyInStr (needle hay : String) : Bool := chContainsL hay.data needle.data

/-- key.split("/"), as performed by get_setting. -/
def keyParts (k : String) : List String := (chSplitChar '/' k.data).map String.mk

/-- k.split("::"), as performed by ConfigTeacherPopup.update_config. -/
def splitColons (k : String) : List String := (chSplitColons k.data).map String.mk

/-- Numeric value of a list of decimal digit characters. -/
def digitsVal (l : List Char) : Nat := l.foldl (fun a c => a * 10 + (c.toNat - 48)) 0

/-- Every character is a decimal digit. -/
def allDigits (l : List Char) : Bool := l.all (fun c => c.isDigit)

/-- Modelled CPython int(s): an optional sign followed by at least one
decimal digit.  Surrounding whitespace and underscore separators, which can
never occur in the text of a digit-filtered input field, are not modelled. -/
def pyIntParse (s : String) : Option Int :=
  match s.data with
  | [] => none
  | c :: rest =>
      if c = '-' then
        if !rest.isEmpty && allDigits rest then some (-(digitsVal rest : Int)) else none
      else if c = '+' then
        if !rest.isEmpty && allDigits rest then some ((digitsVal rest : Int)) else none
      else if allDigits (c :: rest) then some ((digitsVal (c :: rest) : Int)) else none

/-- Drop one leading sign character. -/
def dropSign : List Char → List Char
  | [] => []
  | c :: t => if c = '-' ∨ c = '+' then t else c :: t

/-- Modelled CPython float(s) acceptance for strings drawn from digits,
a decimal point and a sign: an optional sign, then digit and point
characters with at most one point and at least one digit.  Exponents,
whitespace, underscores, inf and nan — none of which a float input field
can display — are not modelled. -/
def pyFloatAccepts (s : String) : Bool :=
  let l := dropSign s.data
  l.all (fun c => c.isDigit || c = '.') && decide (l.count '.' ≤ 1) &&
    l.any (fun c => c.isDigit)

/-- Modelled CPython float(s) value on accepted strings. -/
def pyFloatParse (s : String) : Option Rat :=
  if pyFloatAccepts s then
    let l := dropSign s.data
    let neg : Bool := match s.data with
      | c :: _ => c = '-'
      | [] => false
    let ip := l.takeWhile (fun c => c ≠ '.')
    let fp := (l.dropWhile (fun c => c ≠ '.')).drop 1
    let mag : Rat := (digitsVal ip : Rat) + (digitsVal fp : Rat) / ((10 : Rat) ^ fp.length)
    some (if neg then -mag else mag)
  else none

/-! ## Input widgets and their text filters -/

/-- LabelledIntInput.insert_text strips every character that is not a
decimal digit from the inserted substring (re.sub of the class pattern
"[^0-9]") before handing it to the base insert, which splices it in at the
cursor position. -/
def int_insert_text (text : List Char) (pos : Nat) (sub : List Char) : List Char :=
  text.take pos ++ sub.filter (fun c => c.isDigit) ++ text.drop pos

/-- Character membership in a character list, modelling the Python
membership test `c in text` for a single character. -/
def chElem (x : Char) : List Char → Bool
  | [] => false
  | c :: t => c = x || chElem x t

/-- re.sub of the LabelledFloatInput pattern "[^0-9-]": keep only digits and
minus signs. -/
def floatStrip (l : List Char) : List Char := l.filter (fun c => c.isDigit || c = '-')

/-- substring.split(".", 1): the part before the first decimal point, and
the remainder after it when one exists. -/
def splitFirstDot : List Char → List Char × Option (List Char)
  | [] => ([], none)
  | c :: t =>
      if c = '.' then ([], some t)
      else
        let r := splitFirstDot t
        (c :: r.1, r.2)

/-- The substring filter of LabelledFloatInput.insert_text: if the current
text already holds a decimal point the whole substring is stripped to
digits and minus signs; otherwise the substring is split once at its first
point and the two stripped halves are rejoined with a single point. -/
def floatFilterSub (text sub : List Char) : List Char :=
  if chElem '.' text then floatStrip sub
  else
    match splitFirstDot sub with
    | (a, none) => floatStrip a
    | (a, some b) => floatStrip a ++ '.' :: floatStrip b

/-- The minus-sign post-pass of LabelledFloatInput.insert_text: an unsigned
field drops every minus sign from the text; a signed field keeps the first
character and drops every minus sign after it (str.replace of "-" with the
empty string removes, never relocates). -/
def minusFix (signed : Bool) (t : List Char) : List Char :=
  if !signed && chElem '-' t then t.filter (fun c => c ≠ '-')
  else if !t.isEmpty && chElem '-' (t.drop 1) then
    t.take 1 ++ (t.drop 1).filter (fun c => c ≠ '-')
  else t

/-- LabelledFloatInput.insert_text: filter the substring, splice it in at
the cursor position, then normalize minus signs. -/
def float_insert_text (signed : Bool) (text : List Char) (pos : Nat)
    (sub : List Char) : List Char :=
  minusFix signed (text.take pos ++ floatFilterSub text sub ++ text.drop pos)

/-- One bound widget, identified by its class: its input_property path and
its current display state. -/
inductive Field where
  | textInput (input_property : String) (text : String)
  | intInput (input_property : String) (text : String)
  | floatInput (input_property : String) (signed : Bool) (text : String)
  | checkBox (input_property : String) (active : Bool)
  | spinner (input_property : String) (selectedRef : CVal)

/-- The input_property path of a field. -/
def Field.prop : Field → String
  | .textInput p _ => p
  | .intInput p _ => p
  | .floatInput p _ _ => p
  | .checkBox p _ => p
  | .spinner p _ => p

/-- The input_value property of each widget class: text fields yield their
text, int and float fields parse it (raising on failure), check boxes yield
their boolean state, spinners yield the reference value of the selected
entry. -/
def input_value : Field → Except String CVal
  | .textInput _ t => .ok (.str t)
  | .intInput _ t =>
      match pyIntParse t with
      | some n => .ok (.int n)
      | none => .error "invalid literal for int() with base 10"
  | .floatInput _ _ t =>
      match pyFloatParse t with
      | some q => .ok (.float q)
      | none => .error "could not convert string to float"
  | .checkBox _ a => .ok (.bool a)
  | .spinner _ v => .ok v

/-- The InputParseError message raised by collect_properties, naming the
offending field path. -/
def parseMsg (prop reason : String) : String :=
  "Could not parse value for " ++ prop ++ ": " ++ reason

mutual
/-- A widget tree: a node optionally carries a bound field (widgets without
an input_property contribute nothing) and an ordered list of children. -/
inductive FormNode where
  | node : Option Field → FormKids → FormNode
inductive FormKids where
  | nil : FormKids
  | cons : FormNode → FormKids → FormKids
end

/-- The contribution of a node's own field to collect_properties: nothing
when there is no field or its input_property is empty, a one-entry map on
success, and an InputParseError naming the path when input_value raises. -/
def collectOwn : Option Field → Except String (List (String × CVal))
  | none => .ok []
  | some f =>
      if f.prop = "" then .ok []
      else
        match input_value f with
        | .ok v => .ok [(f.prop, v)]
        | .error e => .error (parseMsg f.prop e)

mutual
/-- QuickConfigGui.collect_properties: the node's own entry, then each
child's map folded in with ret[k] = v (a later child overwrites an earlier
binding).  The first InputParseError aborts the whole traversal. -/
def collect_properties : FormNode → Except String (List (String × CVal))
  | .node f ks =>
      match collectOwn f with
      | .error e => .error e
      | .ok ret => collectChildren ret ks
def collectChildren : List (String × CVal) → FormKids → Except String (List (String × CVal))
  | ret, .nil => .ok ret
  | ret, .cons c rest =>
      match collect_properties c with
      | .error e => .error e
      | .ok m => collectChildren (m.foldl (fun r kv => dset r kv.1 kv.2) ret) rest
end

/-! ## get_setting and the reconciler -/

/-- The core of QuickConfigGui.get_setting, recursing over the split key:
walk the nested dicts, creating an empty dict for a missing intermediate
level, and insert an empty-string leaf when the final key is missing.
Returns the resolved value, the (possibly extended) store, and whether the
leaf had to be created.  Testing membership on an existing non-dict level
raises TypeError, exactly as `k not in config` does in Python; since a
freshly created level is an empty dict, a raising run performs no store
mutation, so the unchanged store is simply discarded with the error. -/
def resolveGet : List String → CVal → Except String (CVal × CVal × Bool)
  | [], _ => .error "empty key"
  | [k], .dict d =>
      match dget d k with
      | some v => .ok (v, .dict d, false)
      | none => .ok (.str "", .dict (dset d k (.str "")), true)
  | k :: k2 :: ks, .dict d =>
      match dget d k with
      | some sub =>
          match resolveGet (k2 :: ks) sub with
          | .ok (v, sub', created) => .ok (v, .dict (dset d k sub'), created)
          | .error e => .error e
      | none =>
          match resolveGet (k2 :: ks) (.dict []) with
          | .ok (v, sub', created) => .ok (v, .dict (dset d k sub'), created)
          | .error e => .error e
  | _ :: _, _ => .error "TypeError: argument of type is not iterable"

/-- The recovery diagnostic logged by get_setting when a leaf is missing. -/
def missingMsg (key : String) : String :=
  "Configuration setting " ++ key ++ " was missing, created it, but this likely indicates a broken config file."

/-- QuickConfigGui.get_setting: split the key on "/", resolve it with
self-healing, and log the recovery diagnostic when the leaf was created. -/
def get_setting (key : String) (store : CVal) : Except String (CVal × CVal × List String) :=
  match resolveGet (keyParts key) store with
  | .error e => .error e
  | .ok (v, s, created) => .ok (v, s, if created then [missingMsg key] else [])

/-- Writing value v at the resolved path: `conf[key] = value` through the
container reference returned by get_setting.  After a successful
resolveGet every intermediate level exists and is a dict, which is the only
shape this function changes. -/
def writeLeaf : List String → CVal → CVal → CVal
  | [k], v, .dict d => .dict (dset d k v)
  | k :: k2 :: ks, v, .dict d =>
      match dget d k with
      | some sub => .dict (dset d k (writeLeaf (k2 :: ks) v sub))
      | none => .dict d
  | _, _, c => c

/-- One iteration of the QuickConfigGui.update_config loop: resolve the
multikey (healing missing levels), then write the collected value back
through the container reference only when it differs under Python
equality.  Returns the new store and whether the path was recorded in the
updated set. -/
def updateOne (store : CVal) (multikey : String) (v : CVal) : Except String (CVal × Bool) :=
  match resolveGet (keyParts multikey) store with
  | .error e => .error e
  | .ok (old, s1, _) =>
      if pyEq v old then .ok (s1, false)
      else .ok (writeLeaf (keyParts multikey) v s1, true)

/-- The full diff-and-write loop of QuickConfigGui.update_config over the
collected map, returning the final store and the changed-path set in
iteration order. -/
def applyCollected : CVal → List (String × CVal) → Except String (CVal × List String)
  | store, [] => .ok (store, [])
  | store, (k, v) :: rest =>
      match updateOne store k v with
      | .error e => .error e
      | .ok (s1, wrote) =>
          match applyCollected s1 rest with
          | .error e => .error e
          | .ok (s2, upd) => .ok (s2, if wrote then k :: upd else upd)

/-- The outcome of one QuickConfigGui.update_config call. -/
structure QuickOutcome where
  store : CVal
  updated : List String
  saved : Bool
  notified : Bool
  dismissed : Bool

/-- QuickConfigGui.update_config: collect (a parse error propagates — this
base-class method has no try block), diff-and-write, save when requested,
notify state change when anything updated, dismiss the popup when open. -/
def qc_update_config (form : FormNode) (store : CVal) (save_to_file : Bool)
    (hasPopup : Bool) : Except String QuickOutcome :=
  match collect_properties form with
  | .error e => .error e
  | .ok collected =>
      match applyCollected store collected with
      | .error e => .error e
      | .ok (s', upd) =>
          .ok { store := s', updated := upd, saved := save_to_file,
                notified := !upd.isEmpty, dismissed := hasPopup }

/-! ## set_properties (pull) -/

/-- Seeding one field's display state from its stored value, as
set_properties does: a check box becomes active exactly when the stored
value is identically the boolean True (`value is True`); text-based fields
display str(value).  A spinner selects the label whose reference value
matches, which leaves its collected reference unmodelled here. -/
def displayField (f : Field) (v : CVal) : Field :=
  match f with
  | .checkBox p _ => .checkBox p (isPyTrue v)
  | .spinner p s => .spinner p s
  | .textInput p _ => .textInput p (pyStr v)
  | .intInput p _ => .intInput p (pyStr v)
  | .floatInput p sg _ => .floatInput p sg (pyStr v)

mutual
/-- QuickConfigGui.set_properties: walk the tree, pulling every bound
field's display state from the store through get_setting (which may heal
the store and log), threading the store through the traversal. -/
def set_properties : FormNode → CVal → Except String (FormNode × CVal × List String)
  | .node f ks, store =>
      match f with
      | some fld =>
          if fld.prop = "" then
            match setKids ks store with
            | .error e => .error e
            | .ok (ks', s1, logs) => .ok (.node (some fld) ks', s1, logs)
          else
            match get_setting fld.prop store with
            | .error e => .error e
            | .ok (v, s1, logs1) =>
                match setKids ks s1 with
                | .error e => .error e
                | .ok (ks', s2, logs2) =>
                    .ok (.node (some (displayField fld v)) ks', s2, logs1 ++ logs2)
      | none =>
          match setKids ks store with
          | .error e => .error e
          | .ok (ks', s1, logs) => .ok (.node none ks', s1, logs)
def setKids : FormKids → CVal → Except String (FormKids × CVal × List String)
  | .nil, store => .ok (.nil, store, [])
  | .cons c rest, store =>
      match set_properties c store with
      | .error e => .error e
      | .ok (c', s1, logs1) =>
          match setKids rest s1 with
          | .error e => .error e
          | .ok (rest', s2, logs2) => .ok (.cons c' rest', s2, logs1 ++ logs2)
end

/-! ## ConfigPopup.update_config (general settings dialog) -/

/-- defaultdict(list) append: updated_cat[k1].append(k2). -/
def catAppend : List (String × List String) → String → String → List (String × List String)
  | [], k1, k2 => [(k1, [k2])]
  | (k, l) :: t, k1, k2 =>
      if k = k1 then (k, l ++ [k2]) :: t else (k, l) :: catAppend t k1 k2

/-- defaultdict(list) read: updated_cat[k1], an empty list when absent. -/
def catGet : List (String × List String) → String → List String
  | [], _ => []
  | (k, l) :: t, k1 => if k = k1 then l else catGet t k1

/-- The diff loop of ConfigPopup.update_config: each collected key is split
into exactly two levels (anything else raises ValueError), looked up
directly in self.config (a missing level raises KeyError, a non-dict level
raises TypeError — this dialog does not self-heal), and written back with
the category/key recorded when the value differs under Python equality. -/
def cfgDiffLoop : List (String × CVal) → List (String × CVal) →
    List (String × List String) →
    Except String (List (String × CVal) × List (String × List String))
  | cfg, [], uc => .ok (cfg, uc)
  | cfg, (k, v) :: rest, uc =>
      match keyParts k with
      | [k1, k2] =>
          match dget cfg k1 with
          | some (.dict sub) =>
              match dget sub k2 with
              | some old =>
                  if pyEq old v then cfgDiffLoop cfg rest uc
                  else cfgDiffLoop (dset cfg k1 (.dict (dset sub k2 v))) rest (catAppend uc k1 k2)
              | none => .error ("KeyError: " ++ k2)
          | some _ => .error "TypeError: value is not subscriptable"
          | none => .error ("KeyError: " ++ k1)
      | _ => .error "ValueError: k.split did not yield two values"

/-- The engine keys whose change does NOT force an engine restart in
ConfigPopup.update_config.  Note that "visits" is absent. -/
def restartExempt : List String := ["max_visits", "max_time", "enable_ownership", "wide_root_noise"]

/-- The info-label text shown while the engine restarts. -/
def restartInfoText : String := "Restarting engine, please wait."

/-- The observable outcome of one ConfigPopup.update_config call.  A field
stays at its initial value when the statement that would set it was never
reached; `raised` records an uncaught exception, after which no further
statement of the method runs. -/
structure ConfigPopupState where
  config : List (String × CVal)
  updated_cat : List (String × List String)
  info_text : String
  dismissed : Bool
  saved : Bool
  visits_set : Option CVal
  restart_scheduled : Bool
  restart_slice : Option CVal
  status_set : Bool
  debug_level : Option CVal
  state_updated : Bool
  raised : Option String

/-- The initial outcome record for a ConfigPopup.update_config call. -/
def cpInit (cfg : List (String × CVal)) : ConfigPopupState :=
  { config := cfg, updated_cat := [], info_text := "", dismissed := false,
    saved := false, visits_set := none, restart_scheduled := false,
    restart_slice := none, status_set := false, debug_level := none,
    state_updated := false, raised := none }

/-- ConfigPopup.update_config.  An InputParseError from collect is caught:
the message goes to the info label and the method returns with nothing
mutated.  After a successful diff the popup is dismissed and the engine
section runs: `engine_updates` is the plain list of changed engine keys, so
when "visits" is among them the hot-apply line evaluates
`engine_updates["visits"]` — indexing a list with a string — and raises
TypeError, ending the call.  Otherwise any changed engine key outside
restartExempt schedules a deferred engine restart constructed from the
updated config["engine"] slice, and finally the debug level is re-read and
the state refreshed. -/
def cp_update_config (form : FormNode) (cfg : List (String × CVal))
    (save_to_file : Bool) : ConfigPopupState :=
  match collect_properties form with
  | .error e => { cpInit cfg with info_text := e }
  | .ok collected =>
      match cfgDiffLoop cfg collected [] with
      | .error e => { cpInit cfg with raised := some e }
      | .ok (cfg1, uc) =>
          let st1 := { cpInit cfg with
            config := cfg1, updated_cat := uc,
            dismissed := true, saved := save_to_file }
          let engine_updates := catGet uc "engine"
          if engine_updates.contains "visits" then
            { st1 with raised := some "TypeError: list indices must be integers or slices, not str" }
          else
            let unsafeKeys := engine_updates.filter (fun k2 => !restartExempt.contains k2)
            let st3 :=
              if !unsafeKeys.isEmpty then
                { st1 with info_text := restartInfoText, status_set := true,
                           restart_scheduled := true, restart_slice := dget cfg1 "engine" }
              else st1
            match dget cfg1 "debug" with
            | some (.dict dsub) =>
                match dget dsub "level" with
                | some lvl => { st3 with debug_level := some lvl, state_updated := true }
                | none => { st3 with raised := some "KeyError: level" }
            | some _ => { st3 with raised := some "TypeError: value is not subscriptable" }
            | none => { st3 with raised := some "KeyError: debug" }

/-! ## ConfigTeacherPopup.update_config (indexed multi-store addressing) -/

/-- The three destination stores of the teacher dialog. -/
structure TeacherState where
  settings : List (String × CVal)
  sgf : List (String × CVal)
  ui : List (String × CVal)

/-- Python list indexing seq[i], with negative indices counting from the
end; out of range is IndexError (none). -/
def pyListGet (l : List CVal) (i : Int) : Option CVal :=
  if i < 0 then
    let j := i + l.length
    if j < 0 then none else l.get? j.toNat
  else l.get? i.toNat

/-- Python list item assignment seq[i] = v; out of range is IndexError. -/
def pyListSet (l : List CVal) (i : Int) (v : CVal) : Option (List CVal) :=
  if i < 0 then
    let j := i + l.length
    if 0 ≤ j ∧ j.toNat < l.length then some (l.set j.toNat v) else none
  else if i.toNat < l.length then some (l.set i.toNat v) else none

/-- The loop body of ConfigTeacherPopup.update_config for one collected
entry.  A key containing "::" is split into a name and an index; a name
containing the substring "alpha" routes to the alpha channel of
ui_settings["eval_colors"] with the boolean converted to 1.0 or 0.0 by
truthiness, otherwise a name containing the substring "save_feedback"
routes to sgf_settings[name], and any other name routes to
settings[name]; a key without "::" routes to settings[key].  Every write
happens only when the new value differs under Python equality. -/
def teacherStep (st : TeacherState) (k : String) (v : CVal) : Except String TeacherState :=
  if pyInStr "::" k then
    match splitColons k with
    | [k1, istr] =>
        match pyIntParse istr with
        | none => .error "ValueError: invalid literal for int() with base 10"
        | some i =>
            if pyInStr "alpha" k1 then
              let v2 : CVal := if pyTruthy v then .float 1 else .float 0
              match dget st.ui "eval_colors" with
              | some (.list colors) =>
                  match pyListGet colors i with
                  | some (.list color) =>
                      match pyListGet color 3 with
                      | some cur =>
                          if pyEq cur v2 then .ok st
                          else
                            match pyListSet color 3 v2 with
                            | some color2 =>
                                match pyListSet colors i (.list color2) with
                                | some colors2 =>
                                    .ok { st with ui := dset st.ui "eval_colors" (.list colors2) }
                                | none => .error "IndexError: list assignment index out of range"
                            | none => .error "IndexError: list assignment index out of range"
                      | none => .error "IndexError: list index out of range"
                  | some _ => .error "TypeError: value is not subscriptable"
                  | none => .error "IndexError: list index out of range"
              | some _ => .error "TypeError: value is not subscriptable"
              | none => .error "KeyError: eval_colors"
            else if pyInStr "save_feedback" k1 then
              match dget st.sgf k1 with
              | some (.list seq) =>
                  match pyListGet seq i with
                  | some cur =>
                      if pyEq cur v then .ok st
                      else
                        match pyListSet seq i v with
                        | some seq2 => .ok { st with sgf := dset st.sgf k1 (.list seq2) }
                        | none => .error "IndexError: list assignment index out of range"
                  | none => .error "IndexError: list index out of range"
              | some _ => .error "TypeError: value is not subscriptable"
              | none => .error ("KeyError: " ++ k1)
            else
              match dget st.settings k1 with
              | some (.list seq) =>
                  match pyListGet seq i with
                  | some cur =>
                      if pyEq cur v then .ok st
                      else
                        match pyListSet seq i v with
                        | some seq2 => .ok { st with settings := dset st.settings k1 (.list seq2) }
                        | none => .error "IndexError: list assignment index out of range"
                  | none => .error "IndexError: list index out of range"
              | some _ => .error "TypeError: value is not subscriptable"
              | none => .error ("KeyError: " ++ k1)
    | _ => .error "ValueError: k.split did not yield two values"
  else
    match dget st.settings k with
    | some cur =>
        if pyEq cur v then .ok st
        else .ok { st with settings := dset st.settings k v }
    | none => .error ("KeyError: " ++ k)

/-- The write loop of ConfigTeacherPopup.update_config; an uncaught
exception stops the loop with the mutations made so far kept. -/
def teacherLoop : TeacherState → List (String × CVal) → TeacherState × Option String
  | st, [] => (st, none)
  | st, (k, v) :: rest =>
      match teacherStep st k v with
      | .ok st2 => teacherLoop st2 rest
      | .error e => (st, some e)

/-- The outcome of one ConfigTeacherPopup.update_config call. -/
structure TeacherOutcome where
  st : TeacherState
  info_text : String
  dismissed : Bool
  saved : Bool
  notified : Bool
  raised : Option String

/-- ConfigTeacherPopup.update_config: collect (an InputParseError goes to
the info label and aborts with nothing written), run the write loop, then
save when requested, dismiss and notify. -/
def teacher_update_config (form : FormNode) (st0 : TeacherState)
    (save_to_file : Bool) : TeacherOutcome :=
  match collect_properties form with
  | .error e =>
      { st := st0, info_text := e, dismissed := false, saved := false,
        notified := false, raised := none }
  | .ok collected =>
      match teacherLoop st0 collected with
      | (st1, some e) =>
          { st := st1, info_text := "", dismissed := false, saved := false,
            notified := false, raised := some e }
      | (st1, none) =>
          { st := st1, info_text := "", dismissed := true, saved := save_to_file,
            notified := true, raised := none }

/-! ## Derived notions used by the specification statements -/

/-- The float-field display invariant claimed by the spec: at most one
decimal point; with signed=false no minus sign at all; with signed=true no
minus sign after position 0 (hence at most one, and only leading). -/
def floatNormalized (signed : Bool) (t : List Char) : Prop :=
  t.count '.' ≤ 1
    ∧ (signed = true → (t.drop 1).count '-' = 0)
    ∧ (signed = false → t.count '-' = 0)

/-- The character alphabet reachable in a float field's text: the insert
filter only ever lets digits, decimal points and minus signs through. -/
def floatAlphabet (t : List Char) : Bool :=
  t.all (fun c => c.isDigit || c = '.' || c = '-')

mutual
/-- All bound fields of a widget tree, in traversal order. -/
def fieldsOf : FormNode → List Field
  | .node none ks => fieldsOfK ks
  | .node (some f) ks => f :: fieldsOfK ks
def fieldsOfK : FormKids → List Field
  | .nil => []
  | .cons c rest => fieldsOf c ++ fieldsOfK rest
end

/-- Boolean prefix test on split key paths. -/
def pfxOf : List String → List String → Bool
  | [], _ => true
  | _ :: _, [] => false
  | a :: p, b :: q => a == b && pfxOf p q

/-- Two split key paths interfere when one is a prefix of the other (in
particular when they are equal): then writing one can change what the
other resolves to. -/
def nonInterf (ps qs : List String) : Prop :=
  pfxOf ps qs = false ∧ pfxOf qs ps = false

/-- A well-formed collected map, as produced by collect_properties over a
form of scalar-valued widgets bound to non-interfering paths: its keys are
pairwise non-interfering after splitting on "/" and its values are
scalars. -/
def wellFormedCollected (c : List (String × CVal)) : Prop :=
  c.Pairwise (fun a b => nonInterf (keyParts a.1) (keyParts b.1))
    ∧ ∀ x ∈ c, isScalar x.2 = true

/-- A path that resolves in store s without healing or error, yielding w:
get_setting finds it and leaves the store untouched. -/
def Resolves (ks : List String) (s : CVal) (w : CVal) : Prop :=
  resolveGet ks s = .ok (w, s, false)

/-- A collected map all of whose entries already resolve to Python-equal
stored values in s: applying it can change nothing. -/
def StableFor (s : CVal) (c : List (String × CVal)) : Prop :=
  ∀ kv ∈ c, ∃ w, Resolves (keyParts kv.1) s w ∧ pyEq kv.2 w = true

/-! ## Scenario inputs fixed by the specification -/

/-- The scenario store of the hot-apply and restart claims. -/
def scenarioCfg : List (String × CVal) :=
  [("engine", .dict [("visits", .int 100), ("max_visits", .int 1000)]),
   ("debug", .dict [("level", .int 1)])]

/-- A form collecting engine/visits = 150 and debug/level = 1. -/
def scenarioForm : FormNode :=
  .node none (.cons (.node (some (.intInput "engine/visits" "150")) .nil)
             (.cons (.node (some (.intInput "debug/level" "1")) .nil) .nil))

/-- A store whose engine section also holds a model_path entry. -/
def scenarioCfgMP : List (String × CVal) :=
  [("engine", .dict [("visits", .int 100), ("model_path", .str "old")]),
   ("debug", .dict [("level", .int 1)])]

/-- A form changing both engine/visits and engine/model_path. -/
def scenarioFormBoth : FormNode :=
  .node none (.cons (.node (some (.intInput "engine/visits" "150")) .nil)
             (.cons (.node (some (.textInput "engine/model_path" "new")) .nil) .nil))

/-- A form changing only engine/model_path. -/
def scenarioFormMP : FormNode :=
  .node (some (.textInput "engine/model_path" "new")) .nil

/-- Teacher-dialog stores for the indexed-addressing scenario. -/
def teacherScenario : TeacherState :=
  { settings := [("eval_thresholds", .list [.float 4, .float 2])],
    sgf := [("save_feedback", .list [.bool true, .bool false])],
    ui := [("eval_colors", .list [.list [.float 1, .float 0, .float 0, .float 0],
                                  .list [.float 0, .float 1, .float 0, .float 1]])] }

/-- Teacher-dialog stores with a trainer setting named "myalpha": its name
contains the substring "alpha" although it is a different key. -/
def teacherMyalpha : TeacherState :=
  { settings := [("myalpha", .list [.float 0])],
    sgf := [],
    ui := [("eval_colors", .list [.list [.float 0, .float 0, .float 0, .float 0]])] }

/-! ## Basic lemmas about the dictionary model -/

theorem dget_dset_self (d : List (String × CVal)) (k : String) (v : CVal) :
    dget (dset d k v) k = some v := by
  induction d with
  | nil => simp [dget, dset]
  | cons h t ih =>
      obtain ⟨k', v'⟩ := h
      by_cases hk : k' = k
      · simp [dget, dset, hk]
      · simp [dget, dset, hk, ih]

theorem dget_dset_ne (d : List (String × CVal)) (k k' : String) (v : CVal)
    (h : k ≠ k') : dget (dset d k' v) k = dget d k := by
  have hne : ¬ (k' = k) := fun hh => h hh.symm
  induction d with
  | nil => simp [dget, dset, hne]
  | cons hd t ih =>
      obtain ⟨k0, v0⟩ := hd
      by_cases hk : k0 = k'
      · subst hk
        simp [dget, dset, hne]
      · by_cases hk2 : k0 = k
        · simp [dget, dset, hk, hk2, h]
        · simp [dget, dset, hk, hk2, ih]

theorem dset_eq_of_dget (d : List (String × CVal)) (k : String) (v : CVal)
    (h : dget d k = some v) : dset d k v = d := by
  induction d with
  | nil => simp [dget] at h
  | cons hd t ih =>
      obtain ⟨k0, v0⟩ := hd
      by_cases hk : k0 = k
      · subst hk
        simp [dget] at h
        simp [dset, h]
      · simp [dget, hk] at h
        simp [dset, hk, ih h]

theorem dget_of_dset_eq (d : List (String × CVal)) (k : String) (v : CVal)
    (h : dset d k v = d) : dget d k = some v := by
  induction d with
  | nil => simp [dset] at h
  | cons hd t ih =>
      obtain ⟨k0, v0⟩ := hd
      by_cases hk : k0 = k
      · subst hk
        simp [dset] at h
        simp [dget, h]
      · simp [dset, hk] at h
        simp [dget, hk, ih h]

theorem dset_dset_self (d : List (String × CVal)) (k : String) (a b : CVal) :
    dset (dset d k a) k b = dset d k b := by
  induction d with
  | nil => simp [dset]
  | cons hd t ih =>
      obtain ⟨k0, v0⟩ := hd
      by_cases hk : k0 = k
      · simp [dset, hk]
      · simp [dset, hk, ih]

theorem pyEq_refl_scalar (v : CVal) (h : isScalar v = true) : pyEq v v = true := by
  cases v <;> simp_all [isScalar, pyEq]

/-! ## C4: self-healing path resolution in get_setting -/

/-- C4 counterexample: the claim says resolving a path during pull never
raises, for every store.  But when an intermediate level exists and is not
a map — store = ("x" ↦ 5), path "x/y" — the Python membership test
`"y" not in 5` raises TypeError, so get_setting raises instead of
healing. -/
theorem claim_C4_counterexample :
    get_setting "x/y" (.dict [("x", .int 5)]) =
      .error "TypeError: argument of type is not iterable" := by rfl

/-- C4 (amended): for a two-level path x/y whose existing levels are maps,
get_setting never raises: a missing level x is created, a missing leaf y is
inserted as the empty string and the recovery diagnostic is logged, a fully
existing path returns its value with the store unmodified and no
diagnostic; the empty-string leaf is displayed as the empty string. -/
theorem claim_C4_amended (key x y : String) (d : List (String × CVal))
    (hk : keyParts key = [x, y]) :
    (dget d x = none →
      get_setting key (.dict d) =
        .ok (.str "", .dict (dset d x (.dict [(y, .str "")])), [missingMsg key]))
    ∧ (∀ sub, dget d x = some (.dict sub) → dget sub y = none →
      get_setting key (.dict d) =
        .ok (.str "", .dict (dset d x (.dict (dset sub y (.str "")))), [missingMsg key]))
    ∧ (∀ sub v, dget d x = some (.dict sub) → dget sub y = some v →
      get_setting key (.dict d) = .ok (v, .dict d, []))
    ∧ pyStr (.str "") = ""
    ∧ (∀ p s, displayField (.textInput p s) (.str "") = .textInput p "") := by
  refine ⟨?_, ?_, ?_, rfl, fun p s => rfl⟩
  · intro h
    simp [get_setting, hk, resolveGet, h, dget, dset]
  · intro sub h1 h2
    simp [get_setting, hk, resolveGet, h1, h2]
  · intro sub v h1 h2
    simp [get_setting, hk, resolveGet, h1, h2, dset_eq_of_dget d x (.dict sub) h1]

/-- C4 witness: resolving the missing path "x/y" in the empty store creates
the nested empty-string leaf and logs the diagnostic. -/
theorem claim_C4_witness :
    get_setting "x/y" (.dict []) =
      .ok (.str "", .dict [("x", .dict [("y", .str "")])], [missingMsg "x/y"]) := by
  have h := (claim_C4_amended "x/y" "x" "y" [] (by rfl)).1 (by rfl)
  simpa [dset] using h

/-! ## C5: integer fields strip non-digits and then never fail to parse -/

theorem allDigits_int_insert (t : List Char) (pos : Nat) (s : List Char)
    (h : allDigits t = true) : allDigits (int_insert_text t pos s) = true := by
  simp only [allDigits, List.all_eq_true] at h ⊢
  intro c hc
  simp only [int_insert_text, List.mem_append] at hc
  rcases hc with (hc | hc) | hc
  · exact h c (List.take_subset _ _ hc)
  · exact (List.mem_filter.mp hc).2
  · exact h c (List.drop_subset _ _ hc)

theorem pyIntParse_allDigits (t : List Char) (h : allDigits t = true)
    (hne : t ≠ []) : pyIntParse (String.mk t) = some ((digitsVal t : Nat) : Int) := by
  cases t with
  | nil => exact absurd rfl hne
  | cons c rest =>
      simp only [allDigits, List.all_cons, Bool.and_eq_true] at h
      have h1 : ¬ (c = '-') := by
        intro hh
        rw [hh] at h
        exact absurd h.1 (by decide)
      have h2 : ¬ (c = '+') := by
        intro hh
        rw [hh] at h
        exact absurd h.1 (by decide)
      have hall : allDigits (c :: rest) = true := by
        simp [allDigits, List.all_cons, h.1, h.2]
      simp [pyIntParse, h1, h2, hall]

/-- C5: any raw text entered into an Int field is stripped to its decimal
digits before insertion, so the text stays all-digits; parsing an all-digit
text fails only when it is empty; the empty text yields an InputParseError
carrying the field's input_property path. -/
theorem claim_C5 :
    (∀ t pos s, allDigits t = true → allDigits (int_insert_text t pos s) = true)
    ∧ (∀ t, allDigits t = true → t ≠ [] →
        pyIntParse (String.mk t) = some ((digitsVal t : Nat) : Int))
    ∧ pyIntParse "" = none
    ∧ (∀ p, p ≠ "" → collect_properties (.node (some (.intInput p "")) .nil) =
        .error (parseMsg p "invalid literal for int() with base 10")) := by
  refine ⟨allDigits_int_insert, pyIntParse_allDigits, rfl, ?_⟩
  intro p hp
  simp [collect_properties, collectChildren, collectOwn, hp, input_value,
    pyIntParse, Field.prop]

/-- C5 witness: entering "12a3" into an empty Int field leaves the digits
"123", which parse to 123. -/
theorem claim_C5_witness :
    allDigits (int_insert_text [] 0 "12a3".data) = true
    ∧ pyIntParse (String.mk (int_insert_text [] 0 "12a3".data)) = some 123 := by
  refine ⟨claim_C5.1 [] 0 "12a3".data (by decide), ?_⟩
  have h := claim_C5.2.1 (int_insert_text [] 0 "12a3".data)
    (claim_C5.1 [] 0 "12a3".data (by decide)) (by decide)
  exact h.trans (by decide)

/-! ## C6: the float field's incremental normalization invariant -/

theorem chElem_iff_mem (x : Char) (l : List Char) : chElem x l = true ↔ x ∈ l := by
  induction l with
  | nil => simp [chElem]
  | cons c t ih =>
      simp only [chElem, Bool.or_eq_true, decide_eq_true_eq, List.mem_cons, ih]
      constructor
      · rintro (h | h)
        · exact Or.inl h.symm
        · exact Or.inr h
      · rintro (h | h)
        · exact Or.inl h.symm
        · exact Or.inr h

theorem count_eq_zero_of_chElem (x : Char) (l : List Char)
    (h : chElem x l = false) : l.count x = 0 :=
  List.count_eq_zero.mpr (fun hm => by
    rw [(chElem_iff_mem x l).mpr hm] at h
    cases h)

theorem count_filter_not (p : Char → Bool) (x : Char) (hp : p x = false)
    (l : List Char) : (l.filter p).count x = 0 := by
  induction l with
  | nil => simp
  | cons c t ih =>
      rw [List.filter_cons]
      by_cases hc : p c = true
      · have hcx : ¬ (c = x) := fun hh => by
          rw [hh] at hc
          rw [hc] at hp
          cases hp
        simp [hc, List.count_cons, hcx, ih]
      · simp [hc, ih]

theorem count_filter_le (p : Char → Bool) (x : Char) (l : List Char) :
    (l.filter p).count x ≤ l.count x := by
  induction l with
  | nil => simp
  | cons c t ih =>
      rw [List.filter_cons]
      by_cases hc : p c = true
      · rw [if_pos hc, List.count_cons, List.count_cons]
        omega
      · rw [if_neg hc, List.count_cons]
        omega

theorem minusFix_count_le (signed : Bool) (t : List Char) (x : Char) :
    (minusFix signed t).count x ≤ t.count x := by
  unfold minusFix
  split
  · exact count_filter_le _ _ _
  · split
    · have h1 : (t.take 1 ++ (t.drop 1).filter (fun c => c ≠ '-')).count x
          = (t.take 1).count x + ((t.drop 1).filter (fun c => c ≠ '-')).count x :=
        List.count_append _ _ _
      have h2 : ((t.drop 1).filter (fun c => c ≠ '-')).count x ≤ (t.drop 1).count x :=
        count_filter_le _ _ _
      have h3 : (t.take 1).count x + (t.drop 1).count x = t.count x := by
        rw [← List.count_append, List.take_append_drop]
      omega
    · exact le_refl _

theorem minusFix_unsigned (t : List Char) : (minusFix false t).count '-' = 0 := by
  unfold minusFix
  by_cases h : chElem '-' t = true
  · simp only [Bool.not_false, Bool.true_and, h, if_true]
    exact count_filter_not _ '-' (by decide) t
  · have h0 : chElem '-' t = false := by simpa using h
    have hd : chElem '-' (t.drop 1) = false := by
      by_cases hdd : chElem '-' (t.drop 1) = true
      · have := (chElem_iff_mem _ _).mp hdd
        have : ('-') ∈ t := List.drop_subset _ _ this
        rw [(chElem_iff_mem _ _).mpr this] at h0
        cases h0
      · simpa using hdd
    simp only [h0, Bool.not_false, Bool.true_and, if_false, hd, Bool.and_false, if_false]
    exact count_eq_zero_of_chElem '-' t h0

theorem minusFix_signed (t : List Char) : ((minusFix true t).drop 1).count '-' = 0 := by
  unfold minusFix
  rw [if_neg (by simp)]
  by_cases hd : (!t.isEmpty && chElem '-' (t.drop 1)) = true
  · rw [if_pos hd]
    cases t with
    | nil => simp [List.isEmpty] at hd
    | cons c rest =>
        have h1 : (c :: rest).take 1 = [c] := rfl
        have h2 : (c :: rest).drop 1 = rest := rfl
        rw [h1, h2]
        have h3 : ([c] ++ rest.filter (fun x => decide (x ≠ '-'))).drop 1
            = rest.filter (fun x => decide (x ≠ '-')) := rfl
        rw [h3]
        exact count_filter_not _ '-' (by decide) rest
  · rw [if_neg hd]
    by_cases hdd : chElem '-' (t.drop 1) = true
    · exfalso
      cases t with
      | nil => simp [chElem] at hdd
      | cons c rest =>
          have hdr : chElem '-' rest = true := hdd
          exact hd (by simp [List.isEmpty, hdr])
    · exact count_eq_zero_of_chElem '-' _ (by simpa using hdd)

theorem count_dot_floatStrip (l : List Char) : (floatStrip l).count '.' = 0 :=
  count_filter_not _ '.' (by decide) l

theorem count_dot_floatFilterSub_pos (t sub : List Char) (h : chElem '.' t = true) :
    (floatFilterSub t sub).count '.' = 0 := by
  unfold floatFilterSub
  rw [if_pos h]
  exact count_dot_floatStrip sub

theorem count_dot_floatFilterSub (t sub : List Char) (h : chElem '.' t = false) :
    (floatFilterSub t sub).count '.' ≤ 1 := by
  unfold floatFilterSub
  rw [if_neg (by simp [h])]
  cases hs : splitFirstDot sub with
  | mk a b =>
      cases b with
      | none =>
          simp [count_dot_floatStrip]
      | some bb =>
          simp [List.count_append, List.count_cons, count_dot_floatStrip]

/-- C6: each insertion into a Float field preserves the display invariant:
at most one decimal point; no minus sign when signed=false; no minus sign
after position 0 (hence at most one, leading) when signed=true. -/
theorem claim_C6 (signed : Bool) (t : List Char) (pos : Nat) (sub : List Char)
    (h : floatNormalized signed t) :
    floatNormalized signed (float_insert_text signed t pos sub) := by
  obtain ⟨hdot, _hs, _hu⟩ := h
  unfold float_insert_text
  refine ⟨?_, ?_, ?_⟩
  · have hsum : (t.take pos).count '.' + (t.drop pos).count '.' = t.count '.' := by
      rw [← List.count_append, List.take_append_drop]
    have happ : (t.take pos ++ floatFilterSub t sub ++ t.drop pos).count '.'
        = (t.take pos).count '.' + (floatFilterSub t sub).count '.'
          + (t.drop pos).count '.' := by
      rw [List.count_append, List.count_append]
    have hmid : (t.take pos ++ floatFilterSub t sub ++ t.drop pos).count '.' ≤ 1 := by
      by_cases hc : chElem '.' t = true
      · have h1 := count_dot_floatFilterSub_pos t sub hc
        omega
      · have h0 : t.count '.' = 0 := count_eq_zero_of_chElem '.' t (by simpa using hc)
        have h1 := count_dot_floatFilterSub t sub (by simpa using hc)
        omega
    exact le_trans (minusFix_count_le _ _ '.') hmid
  · intro hsg
    subst hsg
    exact minusFix_signed _
  · intro hsg
    subst hsg
    exact minusFix_unsigned _

/-- C6 witness: inserting "-.2" at the end of the normalized signed text
"1.5" keeps the text normalized. -/
theorem claim_C6_witness :
    floatNormalized true ['1', '.', '5']
    ∧ floatNormalized true (float_insert_text true ['1', '.', '5'] 3 ['-', '.', '2']) := by
  have hn : floatNormalized true ['1', '.', '5'] :=
    ⟨by decide, fun _ => by decide, fun hf => by cases hf⟩
  exact ⟨hn, claim_C6 true ['1', '.', '5'] 3 ['-', '.', '2'] hn⟩

/-! ## C7: parsing a normalized float text -/

theorem alpha_of_mem_floatStrip (c : Char) (l : List Char) (h : c ∈ floatStrip l) :
    (c.isDigit || c = '.' || c = '-') = true := by
  have h2 := (List.mem_filter.mp h).2
  simp only [Bool.or_eq_true, decide_eq_true_eq] at h2 ⊢
  rcases h2 with h2 | h2
  · exact Or.inl (Or.inl h2)
  · exact Or.inr h2

theorem alpha_of_mem_floatFilterSub (t sub : List Char) (c : Char)
    (h : c ∈ floatFilterSub t sub) : (c.isDigit || c = '.' || c = '-') = true := by
  unfold floatFilterSub at h
  split at h
  · exact alpha_of_mem_floatStrip c sub h
  · split at h
    · exact alpha_of_mem_floatStrip c _ h
    · rcases List.mem_append.mp h with h1 | h1
      · exact alpha_of_mem_floatStrip c _ h1
      · rcases List.mem_cons.mp h1 with h2 | h2
        · subst h2
          decide
        · exact alpha_of_mem_floatStrip c _ h2

theorem mem_of_minusFix (signed : Bool) (l : List Char) (c : Char)
    (h : c ∈ minusFix signed l) : c ∈ l := by
  unfold minusFix at h
  split at h
  · exact List.mem_of_mem_filter h
  · split at h
    · rcases List.mem_append.mp h with h1 | h1
      · exact List.take_subset _ _ h1
      · exact List.drop_subset _ _ (List.mem_of_mem_filter h1)
    · exact h

theorem floatAlphabet_insert (signed : Bool) (t : List Char) (pos : Nat)
    (sub : List Char) (h : floatAlphabet t = true) :
    floatAlphabet (float_insert_text signed t pos sub) = true := by
  simp only [floatAlphabet, List.all_eq_true] at h ⊢
  intro c hc
  have hmid := mem_of_minusFix signed _ c hc
  rcases List.mem_append.mp hmid with h1 | h1
  · rcases List.mem_append.mp h1 with h2 | h2
    · exact h c (List.take_subset _ _ h2)
    · exact alpha_of_mem_floatFilterSub t sub c h2
  · exact h c (List.drop_subset _ _ h1)

/-- C7 counterexample: the claim says a normalized displayed text always
parses unless empty, but the text "-" — reachable by inserting "-" into an
empty signed field, and normalized — is nonempty and float() still
raises. -/
theorem claim_C7_counterexample :
    float_insert_text true [] 0 ['-'] = ['-']
    ∧ floatAlphabet ['-'] = true
    ∧ floatNormalized true ['-']
    ∧ (['-'] ≠ ([] : List Char))
    ∧ pyFloatParse (String.mk ['-']) = none
    ∧ input_value (.floatInput "threshold" true (String.mk ['-'])) =
        .error "could not convert string to float" := by
  refine ⟨rfl, by decide, ⟨by decide, fun _ => by decide, fun hf => by cases hf⟩,
    by decide, rfl, rfl⟩

/-- C7 (amended): parsing never fails on a reachable (filter-alphabet,
normalized) float text that contains at least one digit; it fails exactly
on the digitless texts ("", "-", ".", "-."), and the float field's parse
succeeds exactly when the modelled float() accepts. -/
theorem claim_C7_amended :
    (∀ s : String, (pyFloatParse s).isSome = pyFloatAccepts s)
    ∧ ∀ (signed : Bool) (t : List Char), floatAlphabet t = true →
        floatNormalized signed t →
        (pyFloatAccepts (String.mk t) = true ↔ t.any (fun c => c.isDigit) = true) := by
  constructor
  · intro s
    by_cases h : pyFloatAccepts s = true
    · simp [pyFloatParse, h]
    · simp [pyFloatParse, h]
  · intro signed t halpha hnorm
    obtain ⟨hdot, hsg, hun⟩ := hnorm
    simp only [floatAlphabet, List.all_eq_true] at halpha
    cases t with
    | nil => simp [pyFloatAccepts, dropSign, String.mk]
    | cons c rest =>
        have hrest : ('-') ∉ rest := by
          cases signed with
          | true =>
              have h0 : rest.count '-' = 0 := hsg rfl
              exact List.count_eq_zero.mp h0
          | false =>
              have h0 : (c :: rest).count '-' = 0 := hun rfl
              intro hm
              have := List.count_eq_zero.mp h0
              exact this (List.mem_cons_of_mem c hm)
        have hAc := halpha c (List.mem_cons_self c rest)
        have hnotplus : ¬ (c = '+') := by
          intro hh
          rw [hh] at hAc
          exact absurd hAc (by decide)
        by_cases hc : c = '-'
        · -- dropSign removes the leading minus
          have hdrop : dropSign (c :: rest) = rest := by
            simp [dropSign, hc]
          have hall : rest.all (fun x => x.isDigit || x = '.') = true := by
            simp only [List.all_eq_true]
            intro x hx
            have hA := halpha x (List.mem_cons_of_mem c hx)
            simp only [Bool.or_eq_true, decide_eq_true_eq] at hA ⊢
            rcases hA with (h1 | h1) | h1
            · exact Or.inl h1
            · exact Or.inr h1
            · exact absurd (h1 ▸ hx) hrest
          have hcnt : rest.count '.' ≤ 1 := by
            have : (c :: rest).count '.' = rest.count '.' := by
              rw [List.count_cons]
              simp [hc]
            omega
          have hany : (c :: rest).any (fun x => x.isDigit) = rest.any (fun x => x.isDigit) := by
            simp [hc]
          have hdata : (String.mk (c :: rest)).data = c :: rest := rfl
          simp [pyFloatAccepts, hdata, hdrop, hall, hcnt, hany]
        · have hdrop : dropSign (c :: rest) = c :: rest := by
            simp [dropSign, hc, hnotplus]
          have hall : (c :: rest).all (fun x => x.isDigit || x = '.') = true := by
            simp only [List.all_eq_true]
            intro x hx
            have hA := halpha x hx
            simp only [Bool.or_eq_true, decide_eq_true_eq] at hA ⊢
            rcases hA with (h1 | h1) | h1
            · exact Or.inl h1
            · exact Or.inr h1
            · exfalso
              rcases List.mem_cons.mp hx with h2 | h2
              · exact hc (h2.symm.trans h1)
              · exact hrest (h1 ▸ h2)
          have hdata : (String.mk (c :: rest)).data = c :: rest := rfl
          simp [pyFloatAccepts, hdata, hdrop, hall, hdot]

/-- C7 witness: "1.5" is an alphabet-respecting normalized text with a
digit, so float() accepts it, and the parse-success test agrees with
acceptance. -/
theorem claim_C7_witness :
    (pyFloatParse "1.5").isSome = pyFloatAccepts "1.5"
    ∧ (pyFloatAccepts (String.mk ['1', '.', '5']) = true ↔
        (['1', '.', '5'].any (fun c => c.isDigit)) = true) := by
  exact ⟨claim_C7_amended.1 "1.5",
    claim_C7_amended.2 true ['1', '.', '5'] (by decide)
      ⟨by decide, fun _ => by decide, fun hf => by cases hf⟩⟩

/-! ## C10: checkbox pull uses identity with True, and the next apply
rewrites truthy non-booleans to False -/

/-- C10: during pull a checkbox is displayed checked exactly when the
stored value is identically the boolean True; any other value — including
truthy ones such as the integer 1 or a nonempty string — displays
unchecked, an unedited collect then yields the boolean False, and since a
truthy non-True value is not Python-equal to False, the next apply cycle
writes False over it. -/
theorem claim_C10 (v : CVal) :
    (isPyTrue v = true ↔ v = CVal.bool true)
    ∧ (∀ p b, displayField (.checkBox p b) v = .checkBox p (isPyTrue v))
    ∧ (∀ p, input_value (.checkBox p false) = .ok (.bool false))
    ∧ (pyTruthy v = true → v ≠ CVal.bool true →
        isPyTrue v = false
        ∧ pyEq (CVal.bool false) v = false
        ∧ ∀ (x : String) (d : List (String × CVal)), keyParts x = [x] →
            dget d x = some v →
            updateOne (.dict d) x (.bool false) =
              .ok (.dict (dset d x (.bool false)), true)) := by
  refine ⟨?_, fun p b => rfl, fun p => rfl, ?_⟩
  · cases v with
    | bool b => cases b <;> simp [isPyTrue]
    | int n => simp [isPyTrue]
    | float q => simp [isPyTrue]
    | str s => simp [isPyTrue]
    | list l => simp [isPyTrue]
    | dict d => simp [isPyTrue]
  · intro ht hne
    have hpe : pyEq (CVal.bool false) v = false := by
      cases v with
      | bool b =>
          cases b with
          | true => simp [pyEq]
          | false => simp [pyTruthy] at ht
      | int n =>
          simp only [pyTruthy, bne_iff_ne, ne_eq] at ht
          simp [pyEq, ht]
          omega
      | float q =>
          simp only [pyTruthy, bne_iff_ne, ne_eq] at ht
          simp [pyEq]
          intro hh
          exact absurd hh.symm ht
      | str s => simp [pyEq]
      | list l => simp [pyEq]
      | dict d => simp [pyEq]
    have hfalse : isPyTrue v = false := by
      cases v with
      | bool b =>
          cases b with
          | true => exact absurd rfl hne
          | false => rfl
      | int n => rfl
      | float q => rfl
      | str s => rfl
      | list l => rfl
      | dict d => rfl
    refine ⟨hfalse, hpe, ?_⟩
    intro x d hx hd
    simp [updateOne, hx, resolveGet, hd, hpe, writeLeaf]

/-- C10 witness: a stored integer 1 (truthy, not the boolean True)
displays unchecked and the next apply writes the boolean False over it. -/
theorem claim_C10_witness :
    isPyTrue (CVal.int 1) = false
    ∧ pyEq (CVal.bool false) (CVal.int 1) = false
    ∧ updateOne (.dict [("eval_show_ai", .int 1)]) "eval_show_ai" (.bool false)
        = .ok (.dict [("eval_show_ai", .bool false)], true) := by
  have h := (claim_C10 (CVal.int 1)).2.2.2 (by decide)
    (fun hh => CVal.noConfusion hh)
  obtain ⟨h1, h2, h3⟩ := h
  have h4 := h3 "eval_show_ai" [("eval_show_ai", .int 1)] (by decide) (by rfl)
  exact ⟨h1, h2, h4.trans (by rfl)⟩

/-! ## C1 and C2: the engine hot-apply / restart decision -/

/-- C1: behavior of the code at the claim's scenario.  The diff correctly
yields the changed-set containing exactly engine/visits, but the hot-apply
line indexes the list of changed engine keys with the string "visits" and
raises TypeError: the new visits value is never applied, no restart is
scheduled, and no state-changed notification is emitted (the popup was
already dismissed inside the try block). -/
theorem claim_C1 :
    (cp_update_config scenarioForm scenarioCfg false).updated_cat
        = [("engine", ["visits"])]
    ∧ (cp_update_config scenarioForm scenarioCfg false).config
        = [("engine", .dict [("visits", .int 150), ("max_visits", .int 1000)]),
           ("debug", .dict [("level", .int 1)])]
    ∧ (cp_update_config scenarioForm scenarioCfg false).raised
        = some "TypeError: list indices must be integers or slices, not str"
    ∧ (cp_update_config scenarioForm scenarioCfg false).visits_set = none
    ∧ (cp_update_config scenarioForm scenarioCfg false).restart_scheduled = false
    ∧ (cp_update_config scenarioForm scenarioCfg false).state_updated = false
    ∧ (cp_update_config scenarioForm scenarioCfg false).dismissed = true :=
  ⟨rfl, rfl, rfl, rfl, rfl, rfl, rfl⟩

/-- C2 counterexample: a cycle whose changed-set contains engine/model_path
(outside the allowlist) but also engine/visits does NOT emit a restart: the
hot-apply line raises TypeError first, so the claim's universal statement
fails at this input. -/
theorem claim_C2_counterexample :
    (catGet (cp_update_config scenarioFormBoth scenarioCfgMP false).updated_cat
        "engine").contains "model_path" = true
    ∧ ("model_path" ∉ restartExempt)
    ∧ (cp_update_config scenarioFormBoth scenarioCfgMP false).restart_scheduled = false
    ∧ (cp_update_config scenarioFormBoth scenarioCfgMP false).raised
        = some "TypeError: list indices must be integers or slices, not str" :=
  ⟨rfl, by decide, rfl, rfl⟩

/-- C2 (amended): in any cycle that completes without an uncaught exception
(so "visits" is not among the changed engine keys) and whose changed engine
keys include one outside the code's exempt set, a restart of the engine
subsystem is scheduled, bound to the updated config["engine"] slice; no
visits hot-apply occurs, and the state-changed refresh still runs. -/
theorem claim_C2_amended (form : FormNode) (cfg : List (String × CVal))
    (save : Bool)
    (hraised : (cp_update_config form cfg save).raised = none)
    (hukeys : (catGet (cp_update_config form cfg save).updated_cat "engine").filter
        (fun k2 => !restartExempt.contains k2) ≠ []) :
    (cp_update_config form cfg save).restart_scheduled = true
    ∧ (cp_update_config form cfg save).restart_slice
        = dget (cp_update_config form cfg save).config "engine"
    ∧ (cp_update_config form cfg save).visits_set = none
    ∧ (cp_update_config form cfg save).state_updated = true := by
  cases hcol : collect_properties form with
  | error e =>
      exfalso
      simp [cp_update_config, hcol, cpInit, catGet] at hukeys
  | ok collected =>
      cases hdl : cfgDiffLoop cfg collected [] with
      | error e =>
          exfalso
          simp [cp_update_config, hcol, hdl, cpInit] at hraised
      | ok pr =>
          obtain ⟨cfg1, uc⟩ := pr
          by_cases hv : "visits" ∈ catGet uc "engine"
          · exfalso
            simp [cp_update_config, hcol, hdl, hv, cpInit] at hraised
          · by_cases hu : ∃ x ∈ catGet uc "engine", x ∉ restartExempt
            · cases hdbg : dget cfg1 "debug" with
              | none =>
                  exfalso
                  simp [cp_update_config, hcol, hdl, hv, hu, cpInit, hdbg] at hraised
              | some dv =>
                  cases dv with
                  | dict dsub =>
                      cases hlvl : dget dsub "level" with
                      | none =>
                          exfalso
                          simp [cp_update_config, hcol, hdl, hv, hu, cpInit,
                            hdbg, hlvl] at hraised
                      | some lvl =>
                          refine ⟨?_, ?_, ?_, ?_⟩ <;>
                            simp [cp_update_config, hcol, hdl, hv, hu, cpInit,
                              hdbg, hlvl]
                  | bool b =>
                      exfalso
                      simp [cp_update_config, hcol, hdl, hv, hu, cpInit, hdbg] at hraised
                  | int n =>
                      exfalso
                      simp [cp_update_config, hcol, hdl, hv, hu, cpInit, hdbg] at hraised
                  | float q =>
                      exfalso
                      simp [cp_update_config, hcol, hdl, hv, hu, cpInit, hdbg] at hraised
                  | str s =>
                      exfalso
                      simp [cp_update_config, hcol, hdl, hv, hu, cpInit, hdbg] at hraised
                  | list l =>
                      exfalso
                      simp [cp_update_config, hcol, hdl, hv, hu, cpInit, hdbg] at hraised
            · exfalso
              have huc : (cp_update_config form cfg save).updated_cat = uc := by
                cases hdbg : dget cfg1 "debug" with
                | none => simp [cp_update_config, hcol, hdl, hv, hu, cpInit, hdbg]
                | some dv =>
                    cases dv with
                    | dict dsub =>
                        cases hlvl : dget dsub "level" with
                        | none =>
                            simp [cp_update_config, hcol, hdl, hv, hu, cpInit, hdbg, hlvl]
                        | some lvl =>
                            simp [cp_update_config, hcol, hdl, hv, hu, cpInit, hdbg, hlvl]
                    | bool b => simp [cp_update_config, hcol, hdl, hv, hu, cpInit, hdbg]
                    | int n => simp [cp_update_config, hcol, hdl, hv, hu, cpInit, hdbg]
                    | float q => simp [cp_update_config, hcol, hdl, hv, hu, cpInit, hdbg]
                    | str s => simp [cp_update_config, hcol, hdl, hv, hu, cpInit, hdbg]
                    | list l => simp [cp_update_config, hcol, hdl, hv, hu, cpInit, hdbg]
              apply hukeys
              rw [huc]
              rw [List.filter_eq_nil_iff]
              intro a ha
              by_contra hpa
              exact hu ⟨a, ha, by simpa using hpa⟩

/-- C2 witness: changing only engine/model_path in the scenario store
schedules the restart with the updated engine slice, applies no visits
hot-apply, and refreshes the state. -/
theorem claim_C2_witness :
    (cp_update_config scenarioFormMP scenarioCfgMP false).restart_scheduled = true
    ∧ (cp_update_config scenarioFormMP scenarioCfgMP false).restart_slice
        = dget (cp_update_config scenarioFormMP scenarioCfgMP false).config "engine"
    ∧ (cp_update_config scenarioFormMP scenarioCfgMP false).visits_set = none
    ∧ (cp_update_config scenarioFormMP scenarioCfgMP false).state_updated = true :=
  claim_C2_amended scenarioFormMP scenarioCfgMP false (by rfl)
    (by intro h; exact List.noConfusion h)

/-! ## C3: a parse error aborts the apply cycle atomically -/

theorem dget_mem (r : List (String × CVal)) (k : String) (v : CVal)
    (h : dget r k = some v) : (k, v) ∈ r := by
  induction r with
  | nil => simp [dget] at h
  | cons hd t ih =>
      obtain ⟨k0, v0⟩ := hd
      by_cases hk : k0 = k
      · subst hk
        simp [dget] at h
        subst h
        exact List.mem_cons_self _ _
      · simp [dget, hk] at h
        exact List.mem_cons_of_mem _ (ih h)

theorem dget_isSome_dset (r : List (String × CVal)) (k k' : String) (v : CVal)
    (h : (dget r k).isSome = true) : (dget (dset r k' v) k).isSome = true := by
  by_cases hk : k = k'
  · subst hk
    rw [dget_dset_self]
    rfl
  · rw [dget_dset_ne _ _ _ _ hk]
    exact h

theorem dget_isSome_foldl (m2 : List (String × CVal)) (r : List (String × CVal))
    (k : String)
    (h : (dget r k).isSome = true ∨ ∃ v, (k, v) ∈ m2) :
    (dget (m2.foldl (fun r kv => dset r kv.1 kv.2) r) k).isSome = true := by
  induction m2 generalizing r with
  | nil =>
      rcases h with h | ⟨v, hv⟩
      · exact h
      · cases hv
  | cons hd tl ih =>
      obtain ⟨k0, v0⟩ := hd
      rcases h with h | ⟨v, hv⟩
      · exact ih _ (Or.inl (dget_isSome_dset _ _ _ _ h))
      · rcases List.mem_cons.mp hv with h2 | h2
        · cases h2
          exact ih _ (Or.inl (by rw [dget_dset_self]; rfl))
        · exact ih _ (Or.inr ⟨v, h2⟩)

mutual
theorem collect_error_shape (n : FormNode) (e : String)
    (h : collect_properties n = .error e) :
    ∃ f r, f ∈ fieldsOf n ∧ f.prop ≠ "" ∧ input_value f = .error r
      ∧ e = parseMsg f.prop r := by
  cases n with
  | node f0 ks =>
      cases hc : collectOwn f0 with
      | error e0 =>
          cases f0 with
          | none => simp [collectOwn] at hc
          | some fl =>
              by_cases hp : fl.prop = ""
              · simp [collectOwn, hp] at hc
              · cases hiv : input_value fl with
                | ok v => simp [collectOwn, hp, hiv] at hc
                | error r =>
                    have he : e = parseMsg fl.prop r := by
                      simp [collect_properties, collectOwn, hp, hiv] at h
                      exact h.symm
                    exact ⟨fl, r, by simp [fieldsOf], hp, hiv, he⟩
      | ok ret =>
          have hk : collectChildren ret ks = .error e := by
            simpa [collect_properties, hc] using h
          obtain ⟨f, r, hmem, hprop, hiv, he⟩ := collect_error_shapeK ret ks e hk
          refine ⟨f, r, ?_, hprop, hiv, he⟩
          cases f0 with
          | none => simpa [fieldsOf] using hmem
          | some fl => simp [fieldsOf, hmem]
theorem collect_error_shapeK (acc : List (String × CVal)) (ks : FormKids) (e : String)
    (h : collectChildren acc ks = .error e) :
    ∃ f r, f ∈ fieldsOfK ks ∧ f.prop ≠ "" ∧ input_value f = .error r
      ∧ e = parseMsg f.prop r := by
  cases ks with
  | nil => simp [collectChildren] at h
  | cons c rest =>
      cases hc : collect_properties c with
      | error e0 =>
          have he : e = e0 := by
            simp [collectChildren, hc] at h
            exact h.symm
          obtain ⟨f, r, hmem, hprop, hiv, he0⟩ := collect_error_shape c e0 hc
          exact ⟨f, r, by simp [fieldsOfK, hmem], hprop, hiv, by rw [he, he0]⟩
      | ok m =>
          have hk : collectChildren (m.foldl (fun r kv => dset r kv.1 kv.2) acc) rest
              = .error e := by
            simpa [collectChildren, hc] using h
          obtain ⟨f, r, hmem, hprop, hiv, he⟩ := collect_error_shapeK _ rest e hk
          exact ⟨f, r, by simp [fieldsOfK, hmem], hprop, hiv, he⟩
end

mutual
theorem collect_ok_total (n : FormNode) (m : List (String × CVal))
    (h : collect_properties n = .ok m) :
    ∀ f ∈ fieldsOf n, f.prop ≠ "" →
      (∃ v, input_value f = .ok v) ∧ (dget m f.prop).isSome = true := by
  cases n with
  | node f0 ks =>
      cases hc : collectOwn f0 with
      | error e0 => simp [collect_properties, hc] at h
      | ok ret =>
          have hk : collectChildren ret ks = .ok m := by
            simpa [collect_properties, hc] using h
          intro f hmem hprop
          cases f0 with
          | none =>
              have : f ∈ fieldsOfK ks := by simpa [fieldsOf] using hmem
              exact collect_ok_totalK ret ks m hk f this hprop
          | some fl =>
              rcases List.mem_cons.mp (by simpa [fieldsOf] using hmem) with h2 | h2
              · subst h2
                by_cases hp : f.prop = ""
                · exact absurd hp hprop
                · cases hiv : input_value f with
                  | error r => simp [collectOwn, hp, hiv] at hc
                  | ok v =>
                      refine ⟨⟨v, rfl⟩, ?_⟩
                      have hret : ret = [(f.prop, v)] := by
                        simp [collectOwn, hp, hiv] at hc
                        exact hc.symm
                      have hpres : (dget ret f.prop).isSome = true := by
                        rw [hret]
                        simp [dget]
                      exact (collect_childPres ret ks m hk f.prop hpres)
              · exact collect_ok_totalK ret ks m hk f h2 hprop
theorem collect_ok_totalK (acc : List (String × CVal)) (ks : FormKids)
    (m : List (String × CVal)) (h : collectChildren acc ks = .ok m) :
    ∀ f ∈ fieldsOfK ks, f.prop ≠ "" →
      (∃ v, input_value f = .ok v) ∧ (dget m f.prop).isSome = true := by
  cases ks with
  | nil => intro f hmem; simp [fieldsOfK] at hmem
  | cons c rest =>
      cases hc : collect_properties c with
      | error e0 => simp [collectChildren, hc] at h
      | ok mc =>
          have hk : collectChildren (mc.foldl (fun r kv => dset r kv.1 kv.2) acc) rest
              = .ok m := by
            simpa [collectChildren, hc] using h
          intro f hmem hprop
          rcases List.mem_append.mp (by simpa [fieldsOfK] using hmem) with h2 | h2
          · obtain ⟨⟨v, hv⟩, hpres⟩ := collect_ok_total c mc hc f h2 hprop
            refine ⟨⟨v, hv⟩, ?_⟩
            obtain ⟨w, hw⟩ := Option.isSome_iff_exists.mp hpres
            have : (dget (mc.foldl (fun r kv => dset r kv.1 kv.2) acc) f.prop).isSome
                = true :=
              dget_isSome_foldl mc acc f.prop (Or.inr ⟨w, dget_mem _ _ _ hw⟩)
            exact collect_childPres _ rest m hk f.prop this
          · exact collect_ok_totalK _ rest m hk f h2 hprop
theorem collect_childPres (acc : List (String × CVal)) (ks : FormKids)
    (m : List (String × CVal)) (h : collectChildren acc ks = .ok m) (k : String)
    (hpres : (dget acc k).isSome = true) : (dget m k).isSome = true := by
  cases ks with
  | nil =>
      have : acc = m := by simpa [collectChildren] using h
      rw [← this]
      exact hpres
  | cons c rest =>
      cases hc : collect_properties c with
      | error e0 => simp [collectChildren, hc] at h
      | ok mc =>
          have hk : collectChildren (mc.foldl (fun r kv => dset r kv.1 kv.2) acc) rest
              = .ok m := by
            simpa [collectChildren, hc] using h
          exact collect_childPres _ rest m hk k
            (dget_isSome_foldl mc acc k (Or.inl hpres))
end

/-- C3: a ParseError anywhere in collect aborts the whole apply cycle
atomically: ConfigPopup.update_config leaves the store untouched, an empty
changed-set, and the popup open, showing a message that names the offending
field's path; and collect itself either fails or returns a map in which
every bound field parsed and is present — never a partial map. -/
theorem claim_C3 (form : FormNode) (cfg : List (String × CVal)) (save : Bool)
    (e : String) (hcol : collect_properties form = .error e) :
    cp_update_config form cfg save = { cpInit cfg with info_text := e }
    ∧ (cp_update_config form cfg save).config = cfg
    ∧ (cp_update_config form cfg save).updated_cat = []
    ∧ (cp_update_config form cfg save).dismissed = false
    ∧ (∃ f r, f ∈ fieldsOf form ∧ f.prop ≠ "" ∧ input_value f = .error r
        ∧ e = parseMsg f.prop r)
    ∧ (∀ (form2 : FormNode) (m : List (String × CVal)),
        collect_properties form2 = .ok m →
        ∀ f ∈ fieldsOf form2, f.prop ≠ "" →
          (∃ v, input_value f = .ok v) ∧ (dget m f.prop).isSome = true) := by
  refine ⟨?_, ?_, ?_, ?_, collect_error_shape form e hcol, collect_ok_total⟩
  · simp [cp_update_config, hcol]
  · simp [cp_update_config, hcol, cpInit]
  · simp [cp_update_config, hcol, cpInit]
  · simp [cp_update_config, hcol, cpInit]

/-- C3 witness: a form holding an Int field with empty text over engine/visits
fails to collect, and the apply cycle aborts with the path-naming message,
no store mutation, an empty changed-set and the popup still open. -/
theorem claim_C3_witness :
    cp_update_config (.node (some (.intInput "engine/visits" "")) .nil)
        scenarioCfg true
      = { cpInit scenarioCfg with
          info_text := parseMsg "engine/visits" "invalid literal for int() with base 10" }
    ∧ (∃ f r, f ∈ fieldsOf (.node (some (.intInput "engine/visits" "")) .nil)
        ∧ f.prop ≠ "" ∧ input_value f = .error r
        ∧ parseMsg "engine/visits" "invalid literal for int() with base 10"
            = parseMsg f.prop r) := by
  have h := claim_C3 (.node (some (.intInput "engine/visits" "")) .nil)
    scenarioCfg true
    (parseMsg "engine/visits" "invalid literal for int() with base 10") (by rfl)
  exact ⟨h.1, h.2.2.2.2.1⟩

/-! ## C9: prefix-substring routing of indexed keys across stores -/

theorem pyListGet_nonneg (l : List CVal) (i : Int) (h : 0 ≤ i) :
    pyListGet l i = l.get? i.toNat := by
  simp [pyListGet, not_lt.mpr h]

theorem pyListSet_nonneg (l : List CVal) (i : Int) (v : CVal) (h : 0 ≤ i)
    (hlt : i.toNat < l.length) : pyListSet l i v = some (l.set i.toNat v) := by
  simp [pyListSet, not_lt.mpr h, hlt]

theorem length_of_getq {l : List CVal} {n : Nat} {c : CVal}
    (h : l.get? n = some c) : n < l.length := by
  by_contra hlt
  rw [List.get?_eq_none.mpr (Nat.le_of_not_lt hlt)] at h
  cases h

/-- C9 counterexample: the claim routes every key other than "alpha::i" and
"save_feedback::i" to the generic trainer store, but the code tests
substring containment, so the trainer key "myalpha::0" is captured by the
alpha branch: it writes 1.0 into the UI color store and leaves the trainer
store untouched. -/
theorem claim_C9_counterexample :
    teacherStep teacherMyalpha "myalpha::0" (.bool true)
      = .ok { teacherMyalpha with
          ui := [("eval_colors", .list [.list [.float 0, .float 0, .float 0, .float 1]])] }
    ∧ (teacherLoop teacherMyalpha [("myalpha::0", .bool true)]).1.settings
        = teacherMyalpha.settings :=
  ⟨rfl, rfl⟩

/-- C9 (amended): under the indexed "name::i" scheme the destination store
is chosen by substring containment on the name: a name containing "alpha"
routes to the UI color store's alpha channel at index i, written as 1.0 or
0.0 by truthiness of the collected boolean; otherwise a name containing
"save_feedback" routes to the persistence-flags (sgf) store at the name's
own key and index i with the value unchanged; any other name routes to the
generic trainer settings store — and in every branch the write happens only
when the new value differs from the stored one under Python equality. -/
theorem claim_C9_amended (st : TeacherState) (k k1 istr : String) (i : Int)
    (v : CVal)
    (hin : pyInStr "::" k = true)
    (hsplit : splitColons k = [k1, istr])
    (hint : pyIntParse istr = some i)
    (hi : 0 ≤ i) :
    (pyInStr "alpha" k1 = true →
      ∀ colors color cur,
        dget st.ui "eval_colors" = some (.list colors) →
        colors.get? i.toNat = some (.list color) →
        color.get? 3 = some cur →
        (pyEq cur (if pyTruthy v then CVal.float 1 else CVal.float 0) = true →
            teacherStep st k v = .ok st)
        ∧ (pyEq cur (if pyTruthy v then CVal.float 1 else CVal.float 0) = false →
            teacherStep st k v = .ok { st with
              ui := dset st.ui "eval_colors"
                (.list (colors.set i.toNat
                  (.list (color.set 3
                    (if pyTruthy v then CVal.float 1 else CVal.float 0))))) }))
    ∧ (pyInStr "alpha" k1 = false → pyInStr "save_feedback" k1 = true →
      ∀ seq cur,
        dget st.sgf k1 = some (.list seq) →
        seq.get? i.toNat = some cur →
        (pyEq cur v = true → teacherStep st k v = .ok st)
        ∧ (pyEq cur v = false →
            teacherStep st k v = .ok { st with
              sgf := dset st.sgf k1 (.list (seq.set i.toNat v)) }))
    ∧ (pyInStr "alpha" k1 = false → pyInStr "save_feedback" k1 = false →
      ∀ seq cur,
        dget st.settings k1 = some (.list seq) →
        seq.get? i.toNat = some cur →
        (pyEq cur v = true → teacherStep st k v = .ok st)
        ∧ (pyEq cur v = false →
            teacherStep st k v = .ok { st with
              settings := dset st.settings k1 (.list (seq.set i.toNat v)) })) := by
  refine ⟨?_, ?_, ?_⟩
  · intro ha colors color cur hcolors hget hcur
    have hgeti : pyListGet colors i = some (CVal.list color) := by
      rw [pyListGet_nonneg colors i hi]
      exact hget
    have hget3 : pyListGet color 3 = some cur := by
      rw [pyListGet_nonneg color 3 (by omega)]
      exact hcur
    have hset1 : pyListSet color 3 (if pyTruthy v then CVal.float 1 else CVal.float 0)
        = some (color.set 3 (if pyTruthy v then CVal.float 1 else CVal.float 0)) := by
      have := length_of_getq hcur
      exact pyListSet_nonneg color 3 _ (by omega) (by simpa using this)
    have hset2 : pyListSet colors i
          (.list (color.set 3 (if pyTruthy v then CVal.float 1 else CVal.float 0)))
        = some (colors.set i.toNat
          (.list (color.set 3 (if pyTruthy v then CVal.float 1 else CVal.float 0)))) :=
      pyListSet_nonneg colors i _ hi (length_of_getq hget)
    constructor
    · intro hpe
      simp [teacherStep, hin, hsplit, hint, ha, hcolors, hgeti, hget3, hpe]
    · intro hpe
      simp [teacherStep, hin, hsplit, hint, ha, hcolors, hgeti, hget3, hpe,
        hset1, hset2]
  · intro ha hsf seq cur hseq hget
    have hgeti : pyListGet seq i = some cur := by
      rw [pyListGet_nonneg seq i hi]
      exact hget
    have hset : pyListSet seq i v = some (seq.set i.toNat v) :=
      pyListSet_nonneg seq i v hi (length_of_getq hget)
    constructor
    · intro hpe
      simp [teacherStep, hin, hsplit, hint, ha, hsf, hseq, hgeti, hpe]
    · intro hpe
      simp [teacherStep, hin, hsplit, hint, ha, hsf, hseq, hgeti, hpe, hset]
  · intro ha hsf seq cur hseq hget
    have hgeti : pyListGet seq i = some cur := by
      rw [pyListGet_nonneg seq i hi]
      exact hget
    have hset : pyListSet seq i v = some (seq.set i.toNat v) :=
      pyListSet_nonneg seq i v hi (length_of_getq hget)
    constructor
    · intro hpe
      simp [teacherStep, hin, hsplit, hint, ha, hsf, hseq, hgeti, hpe]
    · intro hpe
      simp [teacherStep, hin, hsplit, hint, ha, hsf, hseq, hgeti, hpe, hset]

/-- C9 witness: in the scenario stores, "alpha::0" = True routes to the UI
color store (alpha channel written as 1.0) while "save_feedback::0" = False
routes to the sgf store at the same index — the same index, two different
destination stores. -/
theorem claim_C9_witness :
    teacherStep teacherScenario "alpha::0" (.bool true)
      = .ok { teacherScenario with
          ui := dset teacherScenario.ui "eval_colors"
            (.list ([CVal.list [.float 1, .float 0, .float 0, .float 0],
                     CVal.list [.float 0, .float 1, .float 0, .float 1]].set 0
              (.list ([CVal.float 1, .float 0, .float 0, .float 0].set 3 (.float 1))))) }
    ∧ teacherStep teacherScenario "save_feedback::0" (.bool false)
      = .ok { teacherScenario with
          sgf := dset teacherScenario.sgf "save_feedback"
            (.list ([CVal.bool true, .bool false].set 0 (.bool false))) } := by
  constructor
  · exact ((claim_C9_amended teacherScenario "alpha::0" "alpha" "0" 0 (.bool true)
      (by decide) (by decide) (by decide) (by decide)).1 (by decide)
      [CVal.list [.float 1, .float 0, .float 0, .float 0],
       CVal.list [.float 0, .float 1, .float 0, .float 1]]
      [CVal.float 1, .float 0, .float 0, .float 0] (.float 0)
      rfl rfl rfl).2 (by decide)
  · exact ((claim_C9_amended teacherScenario "save_feedback::0" "save_feedback" "0" 0
      (.bool false) (by decide) (by decide) (by decide) (by decide)).2.1
      (by decide) (by decide)
      [CVal.bool true, .bool false] (.bool true) rfl rfl).2 (by decide)

/-! ## C8: idempotence of the reconciler -/

theorem resolveGet_empty_not_false (ks : List String) (v s : CVal)
    (h : resolveGet ks (.dict []) = .ok (v, s, false)) : False := by
  induction ks generalizing v s with
  | nil => simp [resolveGet] at h
  | cons k tl ih =>
      cases tl with
      | nil => simp [resolveGet, dget] at h
      | cons k2 ks2 =>
          rw [resolveGet] at h
          simp only [dget] at h
          cases hr : resolveGet (k2 :: ks2) (.dict []) with
          | error e => rw [hr] at h; cases h
          | ok tr =>
              obtain ⟨v', sub', created⟩ := tr
              rw [hr] at h
              simp only [Except.ok.injEq, Prod.mk.injEq] at h
              exact ih v' sub' (by rw [hr, h.2.2])

theorem res_one_inv (k : String) (d : List (String × CVal)) (w : CVal)
    (h : resolveGet [k] (.dict d) = .ok (w, .dict d, false)) : dget d k = some w := by
  cases hd : dget d k with
  | some v =>
      simp [resolveGet, hd] at h
      rw [h]
  | none =>
      simp [resolveGet, hd] at h

theorem res_cons_inv (k k2 : String) (ks : List String) (d : List (String × CVal))
    (w : CVal)
    (h : resolveGet (k :: k2 :: ks) (.dict d) = .ok (w, .dict d, false)) :
    ∃ sub, dget d k = some sub ∧ resolveGet (k2 :: ks) sub = .ok (w, sub, false) := by
  cases hd : dget d k with
  | none =>
      simp only [resolveGet, hd] at h
      cases hr : resolveGet (k2 :: ks) (.dict []) with
      | error e => rw [hr] at h; cases h
      | ok tr =>
          obtain ⟨v', sub', created⟩ := tr
          rw [hr] at h
          simp only [Except.ok.injEq, Prod.mk.injEq] at h
          exact absurd (by rw [hr, h.2.2]) (fun hh => resolveGet_empty_not_false _ _ _ hh)
  | some sub =>
      simp only [resolveGet, hd] at h
      cases hr : resolveGet (k2 :: ks) sub with
      | error e => rw [hr] at h; cases h
      | ok tr =>
          obtain ⟨v', sub', created⟩ := tr
          rw [hr] at h
          simp only [Except.ok.injEq, Prod.mk.injEq, CVal.dict.injEq] at h
          obtain ⟨hw, hdset, hcr⟩ := h
          have hsubeq : dget d k = some sub' := dget_of_dset_eq d k sub' hdset
          rw [hd] at hsubeq
          injection hsubeq with hsubeq
          refine ⟨sub, rfl, ?_⟩
          rw [hr, hw, hcr, hsubeq]

theorem resolveGet_stable (ks : List String) (s : CVal) (w s1 : CVal) (c : Bool)
    (h : resolveGet ks s = .ok (w, s1, c)) : Resolves ks s1 w := by
  induction ks generalizing s w s1 c with
  | nil => simp [resolveGet] at h
  | cons k tl ih =>
      cases tl with
      | nil =>
          cases s with
          | dict d =>
              cases hd : dget d k with
              | some v =>
                  simp [resolveGet, hd] at h
                  obtain ⟨hw, hs1, _⟩ := h
                  rw [← hw, ← hs1]
                  simp [Resolves, resolveGet, hd]
              | none =>
                  simp [resolveGet, hd] at h
                  obtain ⟨hw, hs1, _⟩ := h
                  rw [← hw, ← hs1]
                  simp [Resolves, resolveGet, dget_dset_self]
          | bool b => simp [resolveGet] at h
          | int n => simp [resolveGet] at h
          | float q => simp [resolveGet] at h
          | str ss => simp [resolveGet] at h
          | list l => simp [resolveGet] at h
      | cons k2 ks2 =>
          cases s with
          | dict d =>
              cases hd : dget d k with
              | some sub =>
                  simp only [resolveGet, hd] at h
                  cases hr : resolveGet (k2 :: ks2) sub with
                  | error e => rw [hr] at h; cases h
                  | ok tr =>
                      obtain ⟨v', sub', created⟩ := tr
                      rw [hr] at h
                      simp only [Except.ok.injEq, Prod.mk.injEq] at h
                      obtain ⟨hw, hs1, _⟩ := h
                      have hres' : resolveGet (k2 :: ks2) sub' = .ok (v', sub', false) :=
                        ih sub v' sub' created hr
                      rw [← hw, ← hs1]
                      simp only [Resolves, resolveGet, dget_dset_self]
                      rw [hres']
                      simp [dset_dset_self]
              | none =>
                  simp only [resolveGet, hd] at h
                  cases hr : resolveGet (k2 :: ks2) (.dict []) with
                  | error e => rw [hr] at h; cases h
                  | ok tr =>
                      obtain ⟨v', sub', created⟩ := tr
                      rw [hr] at h
                      simp only [Except.ok.injEq, Prod.mk.injEq] at h
                      obtain ⟨hw, hs1, _⟩ := h
                      have hres' : resolveGet (k2 :: ks2) sub' = .ok (v', sub', false) :=
                        ih _ v' sub' created hr
                      rw [← hw, ← hs1]
                      simp only [Resolves, resolveGet, dget_dset_self]
                      rw [hres']
                      simp [dset_dset_self]
          | bool b => simp [resolveGet] at h
          | int n => simp [resolveGet] at h
          | float q => simp [resolveGet] at h
          | str ss => simp [resolveGet] at h
          | list l => simp [resolveGet] at h

theorem resolve_writeLeaf (ks : List String) (s : CVal) (w v : CVal)
    (h : Resolves ks s w) : Resolves ks (writeLeaf ks v s) v := by
  induction ks generalizing s w with
  | nil => simp [Resolves, resolveGet] at h
  | cons k tl ih =>
      cases tl with
      | nil =>
          cases s with
          | dict d =>
              simp only [Resolves, writeLeaf, resolveGet, dget_dset_self]
          | bool b => simp [Resolves, resolveGet] at h
          | int n => simp [Resolves, resolveGet] at h
          | float q => simp [Resolves, resolveGet] at h
          | str ss => simp [Resolves, resolveGet] at h
          | list l => simp [Resolves, resolveGet] at h
      | cons k2 ks2 =>
          cases s with
          | dict d =>
              obtain ⟨sub, hd, hres⟩ := res_cons_inv k k2 ks2 d w h
              have hres2 : resolveGet (k2 :: ks2) (writeLeaf (k2 :: ks2) v sub)
                  = .ok (v, writeLeaf (k2 :: ks2) v sub, false) := ih sub w hres
              simp only [Resolves, writeLeaf, hd, resolveGet, dget_dset_self]
              rw [hres2]
              simp [dset_dset_self]
          | bool b => simp [Resolves, resolveGet] at h
          | int n => simp [Resolves, resolveGet] at h
          | float q => simp [Resolves, resolveGet] at h
          | str ss => simp [Resolves, resolveGet] at h
          | list l => simp [Resolves, resolveGet] at h

theorem pfxOf_cons_same (a : String) (p q : List String) :
    pfxOf (a :: p) (a :: q) = pfxOf p q := by
  simp [pfxOf]

theorem resolve_frame (qs ps : List String) (s : CVal) (w oq s2 : CVal) (c : Bool)
    (hni : nonInterf ps qs)
    (hres : Resolves ps s w)
    (hq : resolveGet qs s = .ok (oq, s2, c)) :
    Resolves ps s2 w := by
  induction qs generalizing ps s oq s2 c with
  | nil => simp [resolveGet] at hq
  | cons q qtl ih =>
      cases s with
      | dict d =>
          cases qtl with
          | nil =>
              cases hdq : dget d q with
              | some oqv =>
                  simp [resolveGet, hdq] at hq
                  rw [← hq.2.1]
                  exact hres
              | none =>
                  simp [resolveGet, hdq] at hq
                  rw [← hq.2.1]
                  cases ps with
                  | nil => simp [Resolves, resolveGet] at hres
                  | cons p ptl =>
                      cases ptl with
                      | nil =>
                          have hw : dget d p = some w := res_one_inv p d w hres
                          have hpq : ¬ (p = q) := by
                            obtain ⟨h1, _⟩ := hni
                            simp [pfxOf] at h1
                            exact h1
                          simp [Resolves, resolveGet, dget_dset_ne _ _ _ _ hpq, hw]
                      | cons p2 ptl2 =>
                          obtain ⟨sub, hdp, hrsub⟩ := res_cons_inv p p2 ptl2 d w hres
                          have hpq : ¬ (p = q) := by
                            obtain ⟨_, h2⟩ := hni
                            simp [pfxOf] at h2
                            intro hh
                            exact h2 hh.symm
                          have hget2 : dget (dset d q (.str "")) p = some sub := by
                            rw [dget_dset_ne _ _ _ _ hpq, hdp]
                          simp only [Resolves, resolveGet, hget2]
                          rw [hrsub]
                          simp [dset_eq_of_dget _ _ _ hget2]
          | cons q2 qtl2 =>
              cases hdq : dget d q with
              | some subq =>
                  simp only [resolveGet, hdq] at hq
                  cases hrq : resolveGet (q2 :: qtl2) subq with
                  | error e => rw [hrq] at hq; cases hq
                  | ok tr =>
                      obtain ⟨oq', subq', cq⟩ := tr
                      rw [hrq] at hq
                      simp only [Except.ok.injEq, Prod.mk.injEq] at hq
                      obtain ⟨_, hs2, _⟩ := hq
                      rw [← hs2]
                      cases ps with
                      | nil => simp [Resolves, resolveGet] at hres
                      | cons p ptl =>
                          cases ptl with
                          | nil =>
                              have hw : dget d p = some w := res_one_inv p d w hres
                              have hpq : ¬ (p = q) := by
                                obtain ⟨h1, _⟩ := hni
                                simp [pfxOf] at h1
                                exact h1
                              simp [Resolves, resolveGet, dget_dset_ne _ _ _ _ hpq, hw]
                          | cons p2 ptl2 =>
                              obtain ⟨sub, hdp, hrsub⟩ := res_cons_inv p p2 ptl2 d w hres
                              by_cases hpq : p = q
                              · subst hpq
                                rw [hdp] at hdq
                                injection hdq with hdq
                                subst hdq
                                have hni2 : nonInterf (p2 :: ptl2) (q2 :: qtl2) := by
                                  obtain ⟨h1, h2⟩ := hni
                                  rw [pfxOf_cons_same] at h1 h2
                                  exact ⟨h1, h2⟩
                                have hres2 := ih (p2 :: ptl2) sub oq' subq' cq hni2 hrsub hrq
                                simp only [Resolves, resolveGet, dget_dset_self]
                                rw [hres2]
                                simp [dset_dset_self]
                              · have hget2 : dget (dset d q subq') p = some sub := by
                                  rw [dget_dset_ne _ _ _ _ hpq, hdp]
                                simp only [Resolves, resolveGet, hget2]
                                rw [hrsub]
                                simp [dset_eq_of_dget _ _ _ hget2]
              | none =>
                  simp only [resolveGet, hdq] at hq
                  cases hrq : resolveGet (q2 :: qtl2) (.dict []) with
                  | error e => rw [hrq] at hq; cases hq
                  | ok tr =>
                      obtain ⟨oq', subq', cq⟩ := tr
                      rw [hrq] at hq
                      simp only [Except.ok.injEq, Prod.mk.injEq] at hq
                      obtain ⟨_, hs2, _⟩ := hq
                      rw [← hs2]
                      cases ps with
                      | nil => simp [Resolves, resolveGet] at hres
                      | cons p ptl =>
                          cases ptl with
                          | nil =>
                              have hw : dget d p = some w := res_one_inv p d w hres
                              have hpq : ¬ (p = q) := by
                                obtain ⟨h1, _⟩ := hni
                                simp [pfxOf] at h1
                                exact h1
                              simp [Resolves, resolveGet, dget_dset_ne _ _ _ _ hpq, hw]
                          | cons p2 ptl2 =>
                              obtain ⟨sub, hdp, hrsub⟩ := res_cons_inv p p2 ptl2 d w hres
                              have hpq : ¬ (p = q) := by
                                intro hh
                                rw [hh, hdq] at hdp
                                cases hdp
                              have hget2 : dget (dset d q subq') p = some sub := by
                                rw [dget_dset_ne _ _ _ _ hpq, hdp]
                              simp only [Resolves, resolveGet, hget2]
                              rw [hrsub]
                              simp [dset_eq_of_dget _ _ _ hget2]
      | bool b => simp [resolveGet] at hq
      | int n => simp [resolveGet] at hq
      | float q0 => simp [resolveGet] at hq
      | str ss => simp [resolveGet] at hq
      | list l => simp [resolveGet] at hq

theorem writeLeaf_frame (qs ps : List String) (s : CVal) (w oq v : CVal)
    (hni : nonInterf ps qs)
    (hp : Resolves ps s w)
    (hq : Resolves qs s oq) :
    Resolves ps (writeLeaf qs v s) w := by
  induction qs generalizing ps s oq with
  | nil => simp [Resolves, resolveGet] at hq
  | cons q qtl ih =>
      cases s with
      | dict d =>
          cases qtl with
          | nil =>
              cases ps with
              | nil => simp [Resolves, resolveGet] at hp
              | cons p ptl =>
                  cases ptl with
                  | nil =>
                      have hw : dget d p = some w := res_one_inv p d w hp
                      have hpq : ¬ (p = q) := by
                        obtain ⟨h1, _⟩ := hni
                        simp [pfxOf] at h1
                        exact h1
                      simp [Resolves, writeLeaf, resolveGet,
                        dget_dset_ne _ _ _ _ hpq, hw]
                  | cons p2 ptl2 =>
                      obtain ⟨sub, hdp, hrsub⟩ := res_cons_inv p p2 ptl2 d w hp
                      have hpq : ¬ (p = q) := by
                        obtain ⟨_, h2⟩ := hni
                        simp [pfxOf] at h2
                        intro hh
                        exact h2 hh.symm
                      have hget2 : dget (dset d q v) p = some sub := by
                        rw [dget_dset_ne _ _ _ _ hpq, hdp]
                      simp only [Resolves, writeLeaf, resolveGet, hget2]
                      rw [hrsub]
                      simp [dset_eq_of_dget _ _ _ hget2]
          | cons q2 qtl2 =>
              obtain ⟨subq, hdq, hrq⟩ := res_cons_inv q q2 qtl2 d oq hq
              cases ps with
              | nil => simp [Resolves, resolveGet] at hp
              | cons p ptl =>
                  cases ptl with
                  | nil =>
                      have hw : dget d p = some w := res_one_inv p d w hp
                      have hpq : ¬ (p = q) := by
                        obtain ⟨h1, _⟩ := hni
                        simp [pfxOf] at h1
                        exact h1
                      simp [Resolves, writeLeaf, hdq, resolveGet,
                        dget_dset_ne _ _ _ _ hpq, hw]
                  | cons p2 ptl2 =>
                      obtain ⟨sub, hdp, hrsub⟩ := res_cons_inv p p2 ptl2 d w hp
                      by_cases hpq : p = q
                      · subst hpq
                        rw [hdp] at hdq
                        injection hdq with hdq
                        subst hdq
                        have hni2 : nonInterf (p2 :: ptl2) (q2 :: qtl2) := by
                          obtain ⟨h1, h2⟩ := hni
                          rw [pfxOf_cons_same] at h1 h2
                          exact ⟨h1, h2⟩
                        have hres2 := ih (p2 :: ptl2) sub oq hni2 hrsub hrq
                        have hres2' : resolveGet (p2 :: ptl2)
                            (writeLeaf (q2 :: qtl2) v sub)
                            = .ok (w, writeLeaf (q2 :: qtl2) v sub, false) := hres2
                        simp only [Resolves, writeLeaf, hdp, resolveGet, dget_dset_self]
                        rw [hres2']
                        simp [dset_dset_self]
                      · have hget2 : dget (dset d q (writeLeaf (q2 :: qtl2) v subq)) p
                            = some sub := by
                          rw [dget_dset_ne _ _ _ _ hpq, hdp]
                        simp only [Resolves, writeLeaf, hdq, resolveGet, hget2]
                        rw [hrsub]
                        simp [dset_eq_of_dget _ _ _ hget2]
      | bool b => simp [Resolves, resolveGet] at hq
      | int n => simp [Resolves, resolveGet] at hq
      | float q0 => simp [Resolves, resolveGet] at hq
      | str ss => simp [Resolves, resolveGet] at hq
      | list l => simp [Resolves, resolveGet] at hq

theorem updateOne_frame (ps : List String) (s s2 : CVal) (w : CVal) (qk : String)
    (qv : CVal) (b : Bool)
    (hni : nonInterf ps (keyParts qk))
    (hp : Resolves ps s w)
    (h : updateOne s qk qv = .ok (s2, b)) : Resolves ps s2 w := by
  cases hr : resolveGet (keyParts qk) s with
  | error e => simp [updateOne, hr] at h
  | ok tr =>
      obtain ⟨old, s1, c⟩ := tr
      simp only [updateOne, hr] at h
      have hp1 : Resolves ps s1 w :=
        resolve_frame (keyParts qk) ps s w old s1 c hni hp hr
      have hq1 : Resolves (keyParts qk) s1 old := resolveGet_stable _ _ _ _ _ hr
      by_cases hpe : pyEq qv old = true
      · rw [if_pos hpe] at h
        simp only [Except.ok.injEq, Prod.mk.injEq] at h
        rw [← h.1]
        exact hp1
      · rw [if_neg hpe] at h
        simp only [Except.ok.injEq, Prod.mk.injEq] at h
        rw [← h.1]
        exact writeLeaf_frame (keyParts qk) ps s1 w old qv hni hp1 hq1

theorem updateOne_post (s : CVal) (k : String) (qv : CVal) (s1 : CVal) (b : Bool)
    (hsc : isScalar qv = true)
    (h : updateOne s k qv = .ok (s1, b)) :
    ∃ w, Resolves (keyParts k) s1 w ∧ pyEq qv w = true := by
  cases hr : resolveGet (keyParts k) s with
  | error e => simp [updateOne, hr] at h
  | ok tr =>
      obtain ⟨old, smid, c⟩ := tr
      simp only [updateOne, hr] at h
      have hstab : Resolves (keyParts k) smid old := resolveGet_stable _ _ _ _ _ hr
      by_cases hpe : pyEq qv old = true
      · rw [if_pos hpe] at h
        simp only [Except.ok.injEq, Prod.mk.injEq] at h
        refine ⟨old, ?_, hpe⟩
        rw [← h.1]
        exact hstab
      · rw [if_neg hpe] at h
        simp only [Except.ok.injEq, Prod.mk.injEq] at h
        refine ⟨qv, ?_, pyEq_refl_scalar qv hsc⟩
        rw [← h.1]
        exact resolve_writeLeaf _ _ _ qv hstab

theorem apply_frame (rest : List (String × CVal)) (ps : List String)
    (s s' : CVal) (u : List String) (w : CVal)
    (hni : ∀ q ∈ rest, nonInterf ps (keyParts q.1))
    (hp : Resolves ps s w)
    (h : applyCollected s rest = .ok (s', u)) : Resolves ps s' w := by
  induction rest generalizing s s' u with
  | nil =>
      simp [applyCollected] at h
      rw [← h.1]
      exact hp
  | cons kv tl ih =>
      obtain ⟨k, v⟩ := kv
      cases hu : updateOne s k v with
      | error e => simp [applyCollected, hu] at h
      | ok pr =>
          obtain ⟨s1, b⟩ := pr
          simp only [applyCollected, hu] at h
          cases ha : applyCollected s1 tl with
          | error e => rw [ha] at h; cases h
          | ok pr2 =>
              obtain ⟨s2, u2⟩ := pr2
              rw [ha] at h
              simp only [Except.ok.injEq, Prod.mk.injEq] at h
              have hp1 := updateOne_frame ps s s1 w k v b
                (hni (k, v) (List.mem_cons_self _ _)) hp hu
              have hall := ih s1 s2 u2
                (fun q hq => hni q (List.mem_cons_of_mem _ hq)) hp1 ha
              rw [← h.1]
              exact hall

theorem apply_stable (c : List (String × CVal)) (s s' : CVal) (u : List String)
    (hwf : wellFormedCollected c)
    (h : applyCollected s c = .ok (s', u)) : StableFor s' c := by
  induction c generalizing s s' u with
  | nil => intro kv hkv; cases hkv
  | cons kv tl ih =>
      obtain ⟨k, v⟩ := kv
      obtain ⟨hpw, hsc⟩ := hwf
      rw [List.pairwise_cons] at hpw
      obtain ⟨hhead, htail⟩ := hpw
      cases hu : updateOne s k v with
      | error e => simp [applyCollected, hu] at h
      | ok pr =>
          obtain ⟨s1, b⟩ := pr
          simp only [applyCollected, hu] at h
          cases ha : applyCollected s1 tl with
          | error e => rw [ha] at h; cases h
          | ok pr2 =>
              obtain ⟨s2, u2⟩ := pr2
              rw [ha] at h
              simp only [Except.ok.injEq, Prod.mk.injEq] at h
              obtain ⟨hs2, _⟩ := h
              intro kv2 hkv2
              rcases List.mem_cons.mp hkv2 with h2 | h2
              · subst h2
                obtain ⟨w, hres, hpe⟩ := updateOne_post s k v s1 b
                  (hsc (k, v) (List.mem_cons_self _ _)) hu
                refine ⟨w, ?_, hpe⟩
                rw [← hs2]
                exact apply_frame tl (keyParts k) s1 s2 u2 w hhead hres ha
              · have hstep := ih s1 s2 u2
                  ⟨htail, fun x hx => hsc x (List.mem_cons_of_mem _ hx)⟩ ha
                rw [← hs2]
                exact hstep kv2 h2

theorem apply_stable_noop (c : List (String × CVal)) (s : CVal)
    (h : StableFor s c) : applyCollected s c = .ok (s, []) := by
  induction c with
  | nil => rfl
  | cons kv tl ih =>
      obtain ⟨k, v⟩ := kv
      obtain ⟨w, hres, hpe⟩ := h (k, v) (List.mem_cons_self _ _)
      have hres' : resolveGet (keyParts k) s = .ok (w, s, false) := hres
      have hub : updateOne s k v = .ok (s, false) := by
        simp [updateOne, hres', hpe]
      have htl := ih (fun kv2 hkv2 => h kv2 (List.mem_cons_of_mem _ hkv2))
      simp [applyCollected, hub, htl]

/-- C8: the reconciler is idempotent — if applying a well-formed collected
map (pairwise non-interfering split paths, scalar values) succeeds and
produces store s1, then applying the identical map a second time yields an
empty changed-set and leaves s1 unmodified. -/
theorem claim_C8 (store s1 : CVal) (c : List (String × CVal)) (u : List String)
    (hwf : wellFormedCollected c)
    (h1 : applyCollected store c = .ok (s1, u)) :
    applyCollected s1 c = .ok (s1, []) :=
  apply_stable_noop c s1 (apply_stable c store s1 u hwf h1)

/-- C8 witness: applying engine/visits = 150 to the scenario store changes
it once; the second application changes nothing and reports an empty
changed-set. -/
theorem claim_C8_witness :
    applyCollected (.dict scenarioCfg) [("engine/visits", .int 150)]
      = .ok (.dict [("engine", .dict [("visits", .int 150), ("max_visits", .int 1000)]),
                    ("debug", .dict [("level", .int 1)])], ["engine/visits"])
    ∧ applyCollected
        (.dict [("engine", .dict [("visits", .int 150), ("max_visits", .int 1000)]),
                ("debug", .dict [("level", .int 1)])])
        [("engine/visits", .int 150)]
      = .ok (.dict [("engine", .dict [("visits", .int 150), ("max_visits", .int 1000)]),
                    ("debug", .dict [("level", .int 1)])], []) := by
  constructor
  · rfl
  · exact claim_C8 (.dict scenarioCfg)
      (.dict [("engine", .dict [("visits", .int 150), ("max_visits", .int 1000)]),
              ("debug", .dict [("level", .int 1)])])
      [("engine/visits", .int 150)] ["engine/visits"]
      ⟨List.pairwise_singleton _ _, by
        intro x hx
        rcases List.mem_singleton.mp hx with rfl
        rfl⟩
      (by rfl)

end Popups
